import Mathlib

/-!
Shallow embedding of the button-gate firmware core (C sources under
src/src/input/button.c, src/src/output/cv_output.c, src/src/modes/mode_handlers.c
and src/src/fsm/fsm.c), together with theorems settling the frozen claims.

Conventions of the embedding:
* uint32_t values (millisecond clocks) are Nat reduced modulo U32 = 2^32 at
  every point the C code reads the clock; C uint32 subtraction is `wsub`.
* uint8_t counters are Nat with `% 256` where the C code increments them.
* The hardware clock read `p_hal->millis()` becomes an explicit `now : Nat`
  argument supplied at each call, as the C code performs one clock read per
  tick (repeated reads inside one call return the same value).
* Pin writes (`p_hal->set_pin` and the like) carry no logical state beyond the
  `state` field mirrored by the C code, so they are dropped.
* Fields that exist in a struct declaration but are never read or written by
  the code (Button.last_tap_time, Button.counting_hold in include/input/button.h)
  are omitted; the function-static variables of button_detect_config_action
  that actually implement the gesture bookkeeping are an explicit
  `GestureStatics` record threaded through the calls.
-/

namespace ButtonGate

set_option maxRecDepth 10000

/-- Modulus of C uint32_t arithmetic (2^32). -/
def U32 : Nat := 4294967296

/-- C uint32_t subtraction `a - b` where `a` and `b` are already reduced
modulo `U32`. -/
def wsub (a b : Nat) : Nat := (a + U32 - b % U32) % U32

theorem wsub_eq_sub {a b : Nat} (hb : b ≤ a) (ha : a < U32) : wsub a b = a - b := by
  unfold wsub U32 at *
  omega

theorem umod_eq_self {a : Nat} (ha : a < U32) : a % U32 = a :=
  Nat.mod_eq_of_lt ha

theorem wsub_self {a : Nat} (ha : a < U32) : wsub a a = 0 := by
  rw [wsub_eq_sub le_rfl ha]
  omega

-- =========================================================================
-- CVOutput (src/src/output/cv_output.c, include/output/cv_output.h)
-- =========================================================================

/-- PULSE_DURATION_MS from include/output/cv_output.h. -/
def PULSE_DURATION_MS : Nat := 10

/-- CVOutput struct from include/output/cv_output.h. -/
structure CVOutput where
  pin : Nat
  state : Bool
  pulse_start_time : Nat
  pulse_active : Bool
  last_input_state : Bool
deriving Repr, DecidableEq

/-- cv_output_init from cv_output.c. -/
def cv_output_init (pin : Nat) : CVOutput :=
  { pin := pin, state := false, pulse_start_time := 0, pulse_active := false,
    last_input_state := false }

/-- cv_output_reset from cv_output.c (the pin clear carries no logical state). -/
def cv_output_reset (c : CVOutput) : CVOutput :=
  { c with state := false, pulse_start_time := 0, pulse_active := false,
           last_input_state := false }

/-- cv_output_set from cv_output.c. -/
def cv_output_set (c : CVOutput) : CVOutput :=
  { c with state := true }

/-- cv_output_clear from cv_output.c. -/
def cv_output_clear (c : CVOutput) : CVOutput :=
  { c with state := false }

/-- cv_output_update_gate from cv_output.c; returns the updated record and the
C return value `cv_output->state`. -/
def cv_output_update_gate (c : CVOutput) (input_state : Bool) : CVOutput × Bool :=
  let c := if input_state then cv_output_set c else cv_output_clear c
  (c, c.state)

/-- cv_output_update_pulse from cv_output.c; `now` is the value returned by
`p_hal->millis()` during this call. Returns the updated record and the C
return value `cv_output->state`. -/
def cv_output_update_pulse (c : CVOutput) (input_state : Bool) (now : Nat) :
    CVOutput × Bool :=
  let c :=
    if input_state && !c.last_input_state then
      cv_output_set { c with pulse_start_time := now % U32, pulse_active := true }
    else c
  let c :=
    if c.pulse_active then
      if wsub (now % U32) c.pulse_start_time ≥ PULSE_DURATION_MS then
        cv_output_clear { c with pulse_active := false }
      else c
    else c
  ({ c with last_input_state := input_state }, c.state)

/-- cv_output_update_toggle from cv_output.c. -/
def cv_output_update_toggle (c : CVOutput) (input_state : Bool) : CVOutput × Bool :=
  let c :=
    if input_state && !c.last_input_state then
      { c with state := !c.state }
    else c
  ({ c with last_input_state := input_state }, c.state)

-- =========================================================================
-- Button (src/src/input/button.c, include/input/button.h)
-- =========================================================================

/-- TAP_TIMEOUT_MS from include/input/button.h. -/
def TAP_TIMEOUT_MS : Nat := 500

/-- TAPS_TO_CHANGE from include/input/button.h. -/
def TAPS_TO_CHANGE : Nat := 5

/-- HOLD_TIME_MS from include/input/button.h. -/
def HOLD_TIME_MS : Nat := 1000

/-- EDGE_DEBOUNCE_MS from include/input/button.h. -/
def EDGE_DEBOUNCE_MS : Nat := 5

/-- Button struct from include/input/button.h. The declared fields
last_tap_time and counting_hold are never touched by any code in button.c
(the gesture bookkeeping lives in function-static variables, see
GestureStatics) and are omitted here. -/
structure Button where
  pin : Nat
  raw_state : Bool
  pressed : Bool
  last_state : Bool
  rising_edge : Bool
  falling_edge : Bool
  config_action : Bool
  tap_count : Nat
  last_rise_time : Nat
  last_fall_time : Nat
deriving Repr, DecidableEq

/-- Function-static variables of button_detect_config_action in button.c:
one program-wide copy shared by all Button instances. Their C static
initializers are last_tap_time = 0, counting_hold = false. -/
structure GestureStatics where
  last_tap_time : Nat
  counting_hold : Bool
deriving Repr, DecidableEq

/-- Initial values of the function-static gesture variables. -/
def gestureStaticsInit : GestureStatics :=
  { last_tap_time := 0, counting_hold := false }

/-- button_reset from button.c. -/
def button_reset (b : Button) : Button :=
  { b with raw_state := false, pressed := false, last_state := false,
           rising_edge := false, falling_edge := false, tap_count := 0,
           last_rise_time := 0, last_fall_time := 0 }

/-- button_init from button.c: sets the pin, clears config_action, then
resets. (The C struct fields not assigned by either function are
indeterminate in C; the embedding fixes them, which is immaterial because
button_reset overwrites every remaining field.) -/
def button_init (pin : Nat) : Button :=
  button_reset
    { pin := pin, raw_state := false, pressed := false, last_state := false,
      rising_edge := false, falling_edge := false, config_action := false,
      tap_count := 0, last_rise_time := 0, last_fall_time := 0 }

/-- button_has_rising_edge from button.c: mutates last_rise_time when it
reports an edge, so it returns the updated record with the Bool. `now` is
the `p_hal->millis()` value during this call. -/
def button_has_rising_edge (b : Button) (now : Nat) : Button × Bool :=
  if b.raw_state && !b.last_state then
    if wsub (now % U32) b.last_rise_time > EDGE_DEBOUNCE_MS then
      ({ b with last_rise_time := now % U32 }, true)
    else (b, false)
  else (b, false)

/-- button_has_falling_edge from button.c. -/
def button_has_falling_edge (b : Button) (now : Nat) : Button × Bool :=
  if !b.raw_state && b.last_state then
    if wsub (now % U32) b.last_fall_time > EDGE_DEBOUNCE_MS then
      ({ b with last_fall_time := now % U32 }, true)
    else (b, false)
  else (b, false)

/-- First block of button_detect_config_action (button.c lines 81-96):
`// On rising edge (new press)`. -/
def detect_tap_phase (b : Button) (s : GestureStatics) (current_time : Nat) :
    Button × GestureStatics :=
  if b.rising_edge then
    if wsub current_time s.last_tap_time ≤ TAP_TIMEOUT_MS then
      let b := { b with tap_count := (b.tap_count + 1) % 256 }
      let s :=
        if b.tap_count ≥ TAPS_TO_CHANGE then { s with counting_hold := true }
        else s
      (b, { s with last_tap_time := current_time })
    else
      ({ b with tap_count := 1 }, { s with last_tap_time := current_time })
  else (b, s)

/-- Second block of button_detect_config_action (button.c lines 98-105):
`// Check for hold after required taps`; the Bool is action_detected. -/
def detect_hold_phase (b : Button) (s : GestureStatics) (current_time : Nat) :
    Button × GestureStatics × Bool :=
  if s.counting_hold && b.pressed then
    if wsub current_time s.last_tap_time ≥ HOLD_TIME_MS then
      ({ b with tap_count := 0 }, { s with counting_hold := false }, true)
    else (b, s, false)
  else (b, s, false)

/-- Third block of button_detect_config_action (button.c lines 107-113):
`// Reset if button released`. -/
def detect_release_phase (b : Button) (s : GestureStatics) (current_time : Nat) :
    Button × GestureStatics :=
  if !b.pressed then
    let s := { s with counting_hold := false }
    if wsub current_time s.last_tap_time > TAP_TIMEOUT_MS then
      ({ b with tap_count := 0 }, s)
    else (b, s)
  else (b, s)

/-- button_detect_config_action from button.c: the three statement blocks in
sequence, threading the Button, the shared function-static gesture state and
the action_detected flag. -/
def button_detect_config_action (b : Button) (s : GestureStatics) (now : Nat) :
    Button × GestureStatics × Bool :=
  let current_time := now % U32
  let bs := detect_tap_phase b s current_time
  let bsa := detect_hold_phase bs.1 bs.2 current_time
  let bs2 := detect_release_phase bsa.1 bsa.2.1 current_time
  (bs2.1, bs2.2, bsa.2.2)

/-- button_update from button.c. `raw` is the `p_hal->read_pin(button->pin)`
sample and `now` the `p_hal->millis()` value during this call. -/
def button_update (b : Button) (s : GestureStatics) (raw : Bool) (now : Nat) :
    Button × GestureStatics :=
  let b := { b with raw_state := raw, rising_edge := false, falling_edge := false }
  let br := button_has_rising_edge b now
  let b := if br.2 then { br.1 with rising_edge := true, pressed := true } else br.1
  let bf := button_has_falling_edge b now
  let b := if bf.2 then { bf.1 with falling_edge := true, pressed := false } else bf.1
  let bsa := button_detect_config_action b s now
  let b := if bsa.2.2 then { bsa.1 with config_action := true } else bsa.1
  let b := { b with last_state := b.pressed }
  (b, bsa.2.1)

/-- button_consume_config_action from button.c. -/
def button_consume_config_action (b : Button) : Button :=
  { b with config_action := false }

/-- Sequence of button_update calls: each list entry is one tick's
(millis, raw pin sample) pair. -/
def button_run (b : Button) (s : GestureStatics) :
    List (Nat × Bool) → Button × GestureStatics
  | [] => (b, s)
  | (t, raw) :: rest =>
    let bs := button_update b s raw t
    button_run bs.1 bs.2 rest

/-- Times at which a run of button_update calls reports a rising edge
(button->rising_edge set by the call). -/
def risingTimes (b : Button) (s : GestureStatics) :
    List (Nat × Bool) → List Nat
  | [] => []
  | (t, raw) :: rest =>
    let bs := button_update b s raw t
    (if bs.1.rising_edge then [t] else []) ++ risingTimes bs.1 bs.2 rest

/-- Well-formed clock trace: call times are non-decreasing starting from t0
and stay below U32 (the 32-bit counter does not wrap inside the run). -/
def timesOK (t0 : Nat) : List (Nat × Bool) → Prop
  | [] => True
  | (t, _) :: rest => t0 ≤ t ∧ t < U32 ∧ timesOK t rest

instance timesOKDec : ∀ t0 trace, Decidable (timesOK t0 trace)
  | _, [] => by unfold timesOK; exact inferInstance
  | t0, (t, _) :: rest => by
    unfold timesOK
    have : Decidable (timesOK t rest) := timesOKDec t rest
    exact inferInstance

-- =========================================================================
-- Mode handlers (src/src/modes/mode_handlers.c)
-- =========================================================================

/-- Modelled from the spec: OUTPUT_PULSE_MS, the fixed divided-output pulse
duration used by divide_process. The header defining its numeric value
(config/mode_config.h) is not under src/; the spec only calls it a fixed
pulse duration, so a representative positive constant is used. No claim
depends on the value. -/
def OUTPUT_PULSE_MS : Nat := 10

/-- GateContext from the ModeContext union (per mode_handlers.c usage). -/
structure GateContext where
  output_state : Bool
deriving Repr, DecidableEq

/-- TriggerContext from the ModeContext union (per mode_handlers.c usage).
pulse_duration_ms is the uint16 configured duration. -/
structure TriggerContext where
  output_state : Bool
  last_input : Bool
  pulse_start : Nat
  pulse_duration_ms : Nat
deriving Repr, DecidableEq

/-- ToggleContext from the ModeContext union (per mode_handlers.c usage). -/
structure ToggleContext where
  output_state : Bool
  last_input : Bool
deriving Repr, DecidableEq

/-- DivideContext from the ModeContext union (per mode_handlers.c usage).
counter and divisor are uint8. -/
structure DivideContext where
  output_state : Bool
  last_input : Bool
  counter : Nat
  divisor : Nat
  pulse_start : Nat
deriving Repr, DecidableEq

/-- CycleContext from the ModeContext union (per mode_handlers.c usage).
period_ms is uint16, phase uint8, last_toggle uint32. -/
structure CycleContext where
  output_state : Bool
  running : Bool
  last_toggle : Nat
  phase : Nat
  period_ms : Nat
deriving Repr, DecidableEq

/-- trigger_init from mode_handlers.c, parametrized by the resolved pulse
duration: the C code reads it from a settings-indexed table, or takes a
default for an out-of-range index; the table and default live in a header
absent from src/, so the resolved value is the parameter d. -/
def trigger_init (d : Nat) : TriggerContext :=
  { output_state := false, last_input := false, pulse_start := 0,
    pulse_duration_ms := d }

/-- gate_process from mode_handlers.c. Result is (new context, *output,
returned changed flag). -/
def gate_process (ctx : GateContext) (input : Bool) : GateContext × Bool × Bool :=
  let changed := ctx.output_state != input
  ({ output_state := input }, input, changed)

/-- trigger_process from mode_handlers.c; `now` is `p_hal->millis()` during
this call. Result is (new context, *output, returned changed flag). -/
def trigger_process (ctx : TriggerContext) (input : Bool) (now : Nat) :
    TriggerContext × Bool × Bool :=
  let t := now % U32
  -- Detect rising edge -> start pulse
  let cc :=
    if input && !ctx.last_input then
      ({ ctx with output_state := true, pulse_start := t }, true)
    else (ctx, false)
  let ctx := cc.1
  let changed := cc.2
  -- Check pulse expiry
  let cc :=
    if ctx.output_state then
      if wsub t ctx.pulse_start ≥ ctx.pulse_duration_ms then
        ({ ctx with output_state := false }, true)
      else (ctx, changed)
    else (ctx, changed)
  let ctx := { cc.1 with last_input := input }
  (ctx, ctx.output_state, cc.2)

/-- toggle_process from mode_handlers.c. -/
def toggle_process (ctx : ToggleContext) (input : Bool) :
    ToggleContext × Bool × Bool :=
  let cc :=
    if input && !ctx.last_input then
      ({ ctx with output_state := !ctx.output_state }, true)
    else (ctx, false)
  let ctx := { cc.1 with last_input := input }
  (ctx, ctx.output_state, cc.2)

/-- divide_process from mode_handlers.c; `now` is `p_hal->millis()` during
this call. Result is (new context, *output, returned changed flag). -/
def divide_process (ctx : DivideContext) (input : Bool) (now : Nat) :
    DivideContext × Bool × Bool :=
  let t := now % U32
  -- Count rising edges
  let cc :=
    if input && !ctx.last_input then
      let counter := (ctx.counter + 1) % 256
      if counter ≥ ctx.divisor then
        ({ ctx with counter := 0, output_state := true, pulse_start := t }, true)
      else ({ ctx with counter := counter }, false)
    else (ctx, false)
  let ctx := cc.1
  let changed := cc.2
  -- Pulse expiry (short pulse on divided output)
  let cc :=
    if ctx.output_state then
      if wsub t ctx.pulse_start ≥ OUTPUT_PULSE_MS then
        ({ ctx with output_state := false }, true)
      else (ctx, changed)
    else (ctx, changed)
  let ctx := { cc.1 with last_input := input }
  (ctx, ctx.output_state, cc.2)

/-- cycle_process from mode_handlers.c; `now` is `p_hal->millis()` during
this call. The `input` parameter is received but unused, exactly as in the
C code (`(void)input`). Result is (new context, *output, changed flag).
Note on Nat division: the C code divides and reduces by period_ms, which is
undefined behavior in C when period_ms is 0; Lean total division and modulo
by zero yield 0 and the dividend respectively, and no claim concerns a zero
period. -/
def cycle_process (ctx : CycleContext) (_input : Bool) (now : Nat) :
    CycleContext × Bool × Bool :=
  if !ctx.running then (ctx, false, false)
  else
    let t := now % U32
    let half_period := ctx.period_ms / 2
    -- Toggle output at half-period intervals (square wave)
    let cc :=
      if wsub t ctx.last_toggle ≥ half_period then
        ({ ctx with last_toggle := t, output_state := !ctx.output_state }, true)
      else (ctx, false)
    let ctx := cc.1
    let changed := cc.2
    -- Update phase for LED animation (0-255 over full period)
    let elapsed := wsub t (wsub ctx.last_toggle (if ctx.output_state then 0 else half_period))
    let cycle_pos := elapsed % ctx.period_ms
    let phase := (cycle_pos * 255) / ctx.period_ms % 256
    let ctx := { ctx with phase := phase }
    (ctx, ctx.output_state, changed)

/-- ModeContext union from mode_handlers.c, modelled as a product: each mode
handler touches only its own member, so the aliasing of the C union between
variants (never exercised by the code within one mode) is not modelled. -/
structure ModeContext where
  gate : GateContext
  trigger : TriggerContext
  toggle : ToggleContext
  divide : DivideContext
  cycle : CycleContext
deriving Repr, DecidableEq

/-- Modelled from the spec: the uint8 mode identifiers MODE_GATE..MODE_CYCLE
are defined in a header (core/states.h) that is not under src/; only their
distinctness matters, so the mode selector is an enumeration with one
constructor per known identifier plus one for any other uint8 value (the
switch default). -/
inductive Mode where
  | gate
  | trigger
  | toggle
  | divide
  | cycle
  | other
deriving Repr, DecidableEq

/-- mode_handler_process from mode_handlers.c, the non-null path of the
switch dispatch. Result is (new context, *output, returned changed flag).
The switch default runs gate_process, as in the C code. -/
def mode_handler_process (mode : Mode) (ctx : ModeContext) (input : Bool)
    (now : Nat) : ModeContext × Bool × Bool :=
  match mode with
  | .gate =>
    let r := gate_process ctx.gate input
    ({ ctx with gate := r.1 }, r.2.1, r.2.2)
  | .trigger =>
    let r := trigger_process ctx.trigger input now
    ({ ctx with trigger := r.1 }, r.2.1, r.2.2)
  | .toggle =>
    let r := toggle_process ctx.toggle input
    ({ ctx with toggle := r.1 }, r.2.1, r.2.2)
  | .divide =>
    let r := divide_process ctx.divide input now
    ({ ctx with divide := r.1 }, r.2.1, r.2.2)
  | .cycle =>
    let r := cycle_process ctx.cycle input now
    ({ ctx with cycle := r.1 }, r.2.1, r.2.2)
  | .other =>
    let r := gate_process ctx.gate input
    ({ ctx with gate := r.1 }, r.2.1, r.2.2)

-- =========================================================================
-- FSM engine (src/src/fsm/fsm.c)
-- =========================================================================

/-- Modelled from the spec: FSM_ANY_STATE, the wildcard from_state sentinel.
The header fsm/fsm.h defining its numeric value is not under src/; any
reserved uint8 value serves and no theorem depends on the choice. -/
def FSM_ANY_STATE : Nat := 255

/-- Modelled from the spec: FSM_NO_TRANSITION, the action-only to_state
sentinel. The header fsm/fsm.h defining its numeric value is not under
src/; any reserved uint8 value distinct from FSM_ANY_STATE serves and no
theorem depends on the choice. -/
def FSM_NO_TRANSITION : Nat := 254

/-- State table entry (per fsm.c usage: id plus three optional callbacks).
The C callbacks are side-effecting function pointers; the embedding gives
each present callback an identifying label and the engine reports which
labels it invoked, in order. `none` is a NULL callback pointer. -/
structure FSMState where
  id : Nat
  on_enter : Option Nat
  on_exit : Option Nat
  on_update : Option Nat
deriving Repr, DecidableEq

/-- Transition table entry (per fsm.c usage). `action = none` is a NULL
action pointer. -/
structure Transition where
  from_state : Nat
  event : Nat
  to_state : Nat
  action : Option Nat
deriving Repr, DecidableEq

/-- FSM struct (per fsm.c usage). The C num_states/num_transitions are the
list lengths. -/
structure FSM where
  states : List FSMState
  transitions : List Transition
  current_state : Nat
  initial_state : Nat
  active : Bool
deriving Repr, DecidableEq

/-- One observed callback invocation of the FSM engine. -/
inductive HookCall where
  | enterHook : Nat → HookCall
  | exitHook : Nat → HookCall
  | actionHook : Nat → HookCall
  | updateHook : Nat → HookCall
deriving Repr, DecidableEq

/-- find_state from fsm.c: first state with the given id, scanning in table
order. -/
def find_state (fsm : FSM) (state_id : Nat) : Option FSMState :=
  fsm.states.find? (fun st => st.id == state_id)

/-- call_entry_action from fsm.c, as the list of callback invocations it
performs. -/
def call_entry_action (fsm : FSM) (state_id : Nat) : List HookCall :=
  match find_state fsm state_id with
  | some st =>
    match st.on_enter with
    | some h => [HookCall.enterHook h]
    | none => []
  | none => []

/-- call_exit_action from fsm.c, as the list of callback invocations it
performs. -/
def call_exit_action (fsm : FSM) (state_id : Nat) : List HookCall :=
  match find_state fsm state_id with
  | some st =>
    match st.on_exit with
    | some h => [HookCall.exitHook h]
    | none => []
  | none => []

/-- Invocation of a transition action, if present. -/
def actionLog (t : Transition) : List HookCall :=
  match t.action with
  | some a => [HookCall.actionHook a]
  | none => []

/-- First transition in table order matching (current_state or ANY_STATE,
event), exactly the loop condition of fsm_process_event in fsm.c. -/
def findTransition (ts : List Transition) (cur ev : Nat) : Option Transition :=
  ts.find? (fun t =>
    (t.from_state == cur || t.from_state == FSM_ANY_STATE) && t.event == ev)

/-- fsm_init from fsm.c (non-null path). -/
def fsm_init (states : List FSMState) (transitions : List Transition)
    (initial : Nat) : FSM :=
  { states := states, transitions := transitions, current_state := initial,
    initial_state := initial, active := false }

/-- fsm_start from fsm.c (non-null path); returns the new FSM and the
callback invocations. -/
def fsm_start (fsm : FSM) : FSM × List HookCall :=
  let fsm := { fsm with active := true }
  (fsm, call_entry_action fsm fsm.current_state)

/-- fsm_process_event from fsm.c (non-null path; the C guard on a NULL
transition-table pointer belongs to the null-handle layer below). Returns
the new FSM, the C return value (state changed), and the callback
invocations in the order the C code performs them:
exit(old), action, entry(new) for a full transition; action only for
a FSM_NO_TRANSITION match; nothing when no transition matches. -/
def fsm_process_event (fsm : FSM) (event : Nat) : FSM × Bool × List HookCall :=
  if !fsm.active then (fsm, false, [])
  else
    match findTransition fsm.transitions fsm.current_state event with
    | none => (fsm, false, [])
    | some tr =>
      if tr.to_state == FSM_NO_TRANSITION then
        (fsm, false, actionLog tr)
      else
        let log := call_exit_action fsm fsm.current_state ++ actionLog tr
        let fsm1 := { fsm with current_state := tr.to_state }
        (fsm1, true, log ++ call_entry_action fsm1 fsm1.current_state)

/-- fsm_update from fsm.c (non-null path), as its callback invocations. -/
def fsm_update (fsm : FSM) : List HookCall :=
  if !fsm.active then []
  else
    match find_state fsm fsm.current_state with
    | some st =>
      match st.on_update with
      | some h => [HookCall.updateHook h]
      | none => []
    | none => []

/-- fsm_get_state from fsm.c (non-null path). -/
def fsm_get_state (fsm : FSM) : Nat := fsm.current_state

/-- fsm_is_active from fsm.c (non-null path). -/
def fsm_is_active (fsm : FSM) : Bool := fsm.active

-- =========================================================================
-- Null-handle layer (claim C5)
-- =========================================================================

/-!
Model of C NULL component handles: a handle is an Option, `none` being
NULL. A C function that begins with an explicit NULL check and returns a
default maps `none` to `some` of that default; a C function with no NULL
check dereferences the pointer, which is modelled as result `none`
(a fault, not a safe no-op).
-/

/-- fsm_process_event including its `if (!fsm ...) return false;` guard.
A NULL handle yields the neutral result: untouched handle, false, no
callback invocations. -/
def fsm_process_event_opt (h : Option FSM) (event : Nat) :
    Option (Option FSM × Bool × List HookCall) :=
  match h with
  | none => some (none, false, [])
  | some fsm =>
    let r := fsm_process_event fsm event
    some (some r.1, r.2.1, r.2.2)

/-- fsm_get_state including its NULL guard (`if (!fsm) return 0;`). -/
def fsm_get_state_opt (h : Option FSM) : Option Nat :=
  match h with
  | none => some 0
  | some fsm => some (fsm_get_state fsm)

/-- fsm_is_active including its NULL guard (`if (!fsm) return false;`). -/
def fsm_is_active_opt (h : Option FSM) : Option Bool :=
  match h with
  | none => some false
  | some fsm => some (fsm_is_active fsm)

/-- mode_handler_process including its `if (!ctx || !output) return false;`
guard on the context handle: a NULL context yields changed = false with
nothing written. -/
def mode_handler_process_opt (mode : Mode) (h : Option ModeContext)
    (input : Bool) (now : Nat) : Option (Option ModeContext × Bool) :=
  match h with
  | none => some (none, false)
  | some ctx =>
    let r := mode_handler_process mode ctx input now
    some (some r.1, r.2.2)

/-- button_update has no NULL check in button.c: it dereferences the handle
unconditionally (`button->raw_state = ...`), so a NULL handle faults. -/
def button_update_opt (h : Option Button) (s : GestureStatics) (raw : Bool)
    (now : Nat) : Option (Button × GestureStatics) :=
  match h with
  | none => none
  | some b => some (button_update b s raw now)

/-- cv_output_update_pulse has no NULL check in cv_output.c: it dereferences
the handle unconditionally, so a NULL handle faults. -/
def cv_output_update_pulse_opt (h : Option CVOutput) (input_state : Bool)
    (now : Nat) : Option (CVOutput × Bool) :=
  match h with
  | none => none
  | some c => some (cv_output_update_pulse c input_state now)

-- =========================================================================
-- Trace runs and observations used by the theorems
-- =========================================================================

/-- Sequence of trigger_process calls; each entry is one tick's
(millis, input) pair. -/
def trigger_run (ctx : TriggerContext) : List (Nat × Bool) → TriggerContext
  | [] => ctx
  | (t, i) :: rest => trigger_run (trigger_process ctx i t).1 rest

/-- Sequence of cv_output_update_pulse calls; each entry is one tick's
(millis, input) pair. -/
def cv_pulse_run (c : CVOutput) : List (Nat × Bool) → CVOutput
  | [] => c
  | (t, i) :: rest => cv_pulse_run (cv_output_update_pulse c i t).1 rest

/-- Sequence of divide_process calls. -/
def divide_run (ctx : DivideContext) : List (Nat × Bool) → DivideContext
  | [] => ctx
  | (t, i) :: rest => divide_run (divide_process ctx i t).1 rest

/-- Sequence of cycle_process calls; cycle ignores its input, so a trace is
just the list of call times. -/
def cycle_run (ctx : CycleContext) : List Nat → CycleContext
  | [] => ctx
  | t :: rest => cycle_run (cycle_process ctx false t).1 rest

/-- Time of the last rising edge of an input trace (an entry whose input is
true while the previous level, threaded from `prev`, was false). -/
def lastRiseTime (prev : Bool) : List (Nat × Bool) → Option Nat
  | [] => none
  | (t, i) :: rest =>
    match lastRiseTime i rest with
    | some r => some r
    | none => if i && !prev then some t else none

/-- Time of the last call of a trace, `t0` if the trace is empty. -/
def lastTime (t0 : Nat) : List (Nat × Bool) → Nat
  | [] => t0
  | (t, _) :: rest => lastTime t rest

/-- Number of rising edges of an input trace, with the previous level
threaded from `prev`. -/
def riseCount (prev : Bool) : List (Nat × Bool) → Nat
  | [] => 0
  | (_, i) :: rest => (if i && !prev then 1 else 0) + riseCount i rest

/-- Number of divided-output pulse starts in a run of divide_process: calls
taking the branch of divide_process that sets output_state and resets the
counter (a rising edge whose incremented counter reaches the divisor). -/
def divide_pulseStarts (ctx : DivideContext) : List (Nat × Bool) → Nat
  | [] => 0
  | (t, i) :: rest =>
    (if i && !ctx.last_input && (ctx.counter + 1) % 256 ≥ ctx.divisor then 1 else 0)
      + divide_pulseStarts (divide_process ctx i t).1 rest

/-- CVOutput operations applied in an interleaving (claim C7); update_gate,
update_toggle and clear have their own constructors so the amended claim can
single out the invariant-preserving subset. -/
inductive CVOp where
  | opReset
  | opSet
  | opClear
  | opUpdateGate (input : Bool)
  | opUpdatePulse (input : Bool) (now : Nat)
  | opUpdateToggle (input : Bool)
deriving Repr, DecidableEq

/-- Apply one CVOutput operation. -/
def cv_apply (c : CVOutput) : CVOp → CVOutput
  | .opReset => cv_output_reset c
  | .opSet => cv_output_set c
  | .opClear => cv_output_clear c
  | .opUpdateGate i => (cv_output_update_gate c i).1
  | .opUpdatePulse i t => (cv_output_update_pulse c i t).1
  | .opUpdateToggle i => (cv_output_update_toggle c i).1

/-- Apply a sequence of CVOutput operations. -/
def cv_run (c : CVOutput) : List CVOp → CVOutput
  | [] => c
  | op :: rest => cv_run (cv_apply c op) rest

-- =========================================================================
-- Claim C1 (counterexample part)
-- =========================================================================

/-- C1, counterexample: the claim says a rising edge arriving while a pulse
is active does not restart the pulse timer, so the output goes low once
PULSE_DURATION_MS (10 ms) has elapsed from the original pulse start. Run
update_pulse with a rising edge at t = 0 (pulse start), input low at t = 3,
a second rising edge at t = 5 while the pulse is active, and a call at
t = 10: elapsed time since the original start is 10 ≥ PULSE_DURATION_MS,
so the claim requires the output to be low, but the code reloaded
pulse_start_time at the t = 5 edge and the output is still high. -/
theorem claim1_counterexample :
    (cv_pulse_run (cv_output_init 0)
      [(0, true), (3, false), (5, true), (10, true)]).state = true := by
  decide

-- =========================================================================
-- Claim C3 (counterexample part)
-- =========================================================================

/-- C3, counterexample: the claim says releasing before the hold completes
cancels the hold-counting phase without clearing tap_count. Five valid taps
at t = 10, 110, 210, 310, 410 (releases at 60, 160, 260, 360) reach
tap_count = 5 and enter the hold-counting phase; the button is then
released at t = 1010, only 600 ms after the fifth tap, so the hold
(1000 ms) never completes. The release does cancel the hold-counting
phase, but because 600 > TAP_TIMEOUT_MS the release call also resets
tap_count to 0, contradicting the claim. -/
theorem claim3_counterexample :
    (button_run (button_init 0) gestureStaticsInit
      [(10, true), (60, false), (110, true), (160, false), (210, true),
       (260, false), (310, true), (360, false), (410, true),
       (1009, true), (1010, false)]).1.tap_count = 0 ∧
    (button_run (button_init 0) gestureStaticsInit
      [(10, true), (60, false), (110, true), (160, false), (210, true),
       (260, false), (310, true), (360, false), (410, true),
       (1009, true), (1010, false)]).2.counting_hold = false ∧
    (button_run (button_init 0) gestureStaticsInit
      [(10, true), (60, false), (110, true), (160, false), (210, true),
       (260, false), (310, true), (360, false), (410, true),
       (1009, true), (1010, false)]).1.config_action = false := by
  decide

-- =========================================================================
-- Claim C5
-- =========================================================================

/-- C5, counterexample: the claim says every public core operation of
Button, CVOutput, FSM and the mode handlers is a safe no-op on a null
handle. button_update and cv_output_update_pulse perform no null check and
dereference the handle unconditionally (button.c line 46, cv_output.c line
40), modelled as result `none` (fault) rather than a safe default. -/
theorem claim5_counterexample :
    button_update_opt none gestureStaticsInit true 0 = none ∧
    cv_output_update_pulse_opt none true 0 = none := by
  exact ⟨rfl, rfl⟩

/-- C5, amended: the FSM engine operations and the mode-handler dispatch do
check for NULL and return neutral defaults (false, 0, no callback
invocations, context untouched); the Button and CVOutput operations do not
null-check (see the counterexample). -/
theorem claim5_amended :
    (∀ event, fsm_process_event_opt none event = some (none, false, [])) ∧
    fsm_get_state_opt none = some 0 ∧
    fsm_is_active_opt none = some false ∧
    (∀ mode input now, mode_handler_process_opt mode none input now = some (none, false)) := by
  exact ⟨fun _ => rfl, rfl, rfl, fun _ _ _ => rfl⟩

-- =========================================================================
-- Claim C6
-- =========================================================================

/-- C6: for every active FSM and event, if the first transition in table
order matching (current_state or ANY_STATE, event) has
to_state = FSM_NO_TRANSITION, then fsm_process_event runs exactly that
transition's action (if any), returns false, and leaves the FSM (hence
current_state) unchanged with no entry or exit callback invoked; if no
transition matches, it returns false, leaves the FSM unchanged and invokes
no callback at all. -/
theorem claim6_fsm_frame (fsm : FSM) (event : Nat) (hact : fsm.active = true) :
    (∀ tr, findTransition fsm.transitions fsm.current_state event = some tr →
      tr.to_state = FSM_NO_TRANSITION →
      fsm_process_event fsm event = (fsm, false, actionLog tr)) ∧
    (findTransition fsm.transitions fsm.current_state event = none →
      fsm_process_event fsm event = (fsm, false, [])) := by
  constructor
  · intro tr hfind hto
    simp [fsm_process_event, hact, hfind, hto]
  · intro hfind
    simp [fsm_process_event, hact, hfind]

/-- Concrete FSM used by the C6 witness: one state with entry and exit
hooks, an action-only transition on event 7 and no transition on event 9. -/
def fsmC6 : FSM :=
  { states := [{ id := 0, on_enter := some 10, on_exit := some 11, on_update := none }],
    transitions := [{ from_state := 0, event := 7, to_state := FSM_NO_TRANSITION, action := some 42 }],
    current_state := 0, initial_state := 0, active := true }

/-- C6 witness: on event 7 the action-only transition fires its action and
nothing else; on event 9 nothing matches and nothing runs. -/
theorem claim6_witness :
    fsm_process_event fsmC6 7 = (fsmC6, false, [HookCall.actionHook 42]) ∧
    fsm_process_event fsmC6 9 = (fsmC6, false, []) := by
  constructor
  · exact (claim6_fsm_frame fsmC6 7 rfl).1
      { from_state := 0, event := 7, to_state := FSM_NO_TRANSITION, action := some 42 }
      (by decide) rfl
  · exact (claim6_fsm_frame fsmC6 9 rfl).2 (by decide)

-- =========================================================================
-- Claim C7
-- =========================================================================

/-- C7, counterexample: the claim says pulse_active implies state = true and
that every CVOutput operation preserves this in every interleaving. Start a
pulse with update_pulse (pulse_active and state both become true), then call
cv_output_clear: clear sets state = false but does not touch pulse_active,
so the invariant is broken. -/
theorem claim7_counterexample :
    (cv_output_clear (cv_pulse_run (cv_output_init 0) [(0, true)])).pulse_active = true ∧
    (cv_output_clear (cv_pulse_run (cv_output_init 0) [(0, true)])).state = false := by
  decide

/-- CVOutput operations that do preserve the pulse invariant: reset, set and
update_pulse (clear, update_gate and update_toggle can drive state low while
pulse_active stays set). -/
def cvOpSafe : CVOp → Bool
  | .opReset => true
  | .opSet => true
  | .opUpdatePulse _ _ => true
  | .opClear => false
  | .opUpdateGate _ => false
  | .opUpdateToggle _ => false

/-- One step of the pulse invariant, for the operations of cvOpSafe. -/
theorem cv_apply_safe_inv (c : CVOutput) (op : CVOp) (hsafe : cvOpSafe op = true)
    (h : c.pulse_active = true → c.state = true) :
    (cv_apply c op).pulse_active = true → (cv_apply c op).state = true := by
  cases op with
  | opReset => intro hc; simp [cv_apply, cv_output_reset] at hc
  | opSet => intro _; simp [cv_apply, cv_output_set]
  | opUpdatePulse i t =>
    simp only [cv_apply, cv_output_update_pulse, cv_output_set, cv_output_clear]
    split
    · split
      · split <;> simp_all
      · simp_all
    · split
      · split <;> simp_all
      · simp_all
  | opClear => simp [cvOpSafe] at hsafe
  | opUpdateGate i => simp [cvOpSafe] at hsafe
  | opUpdateToggle i => simp [cvOpSafe] at hsafe

/-- Pulse invariant along a run of safe operations, from any state
satisfying it. -/
theorem cv_run_safe_inv :
    ∀ (ops : List CVOp) (c : CVOutput), (∀ op ∈ ops, cvOpSafe op = true) →
      (c.pulse_active = true → c.state = true) →
      ((cv_run c ops).pulse_active = true → (cv_run c ops).state = true)
  | [], _, _, h => h
  | op :: rest, c, hops, h => by
    have hop : cvOpSafe op = true := hops op (List.mem_cons_self op rest)
    have hrest : ∀ o ∈ rest, cvOpSafe o = true :=
      fun o ho => hops o (List.mem_cons_of_mem op ho)
    exact cv_run_safe_inv rest (cv_apply c op) hrest (cv_apply_safe_inv c op hop h)

/-- C7, amended: pulse_active implies state = true after cv_output_init, and
the invariant is preserved by every interleaving of reset, set and
update_pulse; it is not preserved by clear (nor by update_gate or
update_toggle driving the output low), see the counterexample. -/
theorem claim7_amended (pin : Nat) (ops : List CVOp)
    (hops : ∀ op ∈ ops, cvOpSafe op = true) :
    (cv_run (cv_output_init pin) ops).pulse_active = true →
    (cv_run (cv_output_init pin) ops).state = true := by
  exact cv_run_safe_inv ops (cv_output_init pin) hops (by simp [cv_output_init])

/-- C7 witness: a concrete interleaving of set, update_pulse and reset
keeps the invariant. -/
theorem claim7_witness :
    (cv_run (cv_output_init 0)
      [CVOp.opSet, CVOp.opUpdatePulse true 0, CVOp.opUpdatePulse true 4,
       CVOp.opReset, CVOp.opUpdatePulse true 7]).pulse_active = true ∧
    (cv_run (cv_output_init 0)
      [CVOp.opSet, CVOp.opUpdatePulse true 0, CVOp.opUpdatePulse true 4,
       CVOp.opReset, CVOp.opUpdatePulse true 7]).state = true :=
  ⟨by decide,
   claim7_amended 0
     [CVOp.opSet, CVOp.opUpdatePulse true 0, CVOp.opUpdatePulse true 4,
      CVOp.opReset, CVOp.opUpdatePulse true 7] (by decide) (by decide)⟩

-- =========================================================================
-- Claim C9 (counterexample part)
-- =========================================================================

/-- C9, counterexample: the claim says the square-wave period equals the
configured period_ms. With period_ms = 3 the half period is the integer
quotient 1, so under 1 ms-dense calls the output toggles every 1 ms and the
wave has period 2, not 3: after the call at t = 3 (exactly one configured
period after t = 0) the output differs from its value after the call at
t = 0. -/
theorem claim9_counterexample :
    (cycle_run { output_state := false, running := true, last_toggle := 0,
                 phase := 0, period_ms := 3 } [0, 1, 2, 3]).output_state = true ∧
    (cycle_run { output_state := false, running := true, last_toggle := 0,
                 phase := 0, period_ms := 3 } [0]).output_state = false := by
  decide

-- =========================================================================
-- Claim C10
-- =========================================================================

/-- C10: the gesture bookkeeping (last tap time and hold-counting flag)
lives in the function-static GestureStatics shared by all Button instances,
not in the Button record. Consequences proved: (1) button_reset leaves
config_action untouched (and, taking only a Button, cannot clear the static
gesture state at all); (2) in an interleaved run, button A performing five
valid taps (t = 10..410) sets the shared counting_hold, after which button
B — pressed once at t = 420 and still held at t = 1420 — receives
config_action although its own tap_count never reached TAPS_TO_CHANGE;
(3) the same two calls on B starting from fresh statics produce no config
action, so B's result in (2) came entirely from A's writes to the shared
state. -/
theorem claim10_shared_statics :
    (∀ b : Button, (button_reset b).config_action = b.config_action) ∧
    ((button_run (button_init 1)
        (button_run (button_init 0) gestureStaticsInit
          [(10, true), (60, false), (110, true), (160, false), (210, true),
           (260, false), (310, true), (360, false), (410, true)]).2
        [(420, true), (1420, true)]).1.config_action = true ∧
      (button_run (button_init 0) gestureStaticsInit
        [(10, true), (60, false), (110, true), (160, false), (210, true),
         (260, false), (310, true), (360, false), (410, true)]).2.counting_hold = true ∧
      (button_run (button_init 1)
        (button_run (button_init 0) gestureStaticsInit
          [(10, true), (60, false), (110, true), (160, false), (210, true),
           (260, false), (310, true), (360, false), (410, true)]).2
        [(420, true), (1420, true)]).1.tap_count = 0) ∧
    (button_run (button_init 1) gestureStaticsInit
      [(420, true), (1420, true)]).1.config_action = false := by
  refine ⟨fun b => rfl, ?_, ?_⟩
  · decide
  · decide

-- =========================================================================
-- Claim C2 (and machinery shared with the C1 amendment)
-- =========================================================================

theorem lastTime_ge :
    ∀ (trace : List (Nat × Bool)) (t0 : Nat), timesOK t0 trace →
      t0 ≤ lastTime t0 trace
  | [], _, _ => le_rfl
  | (t, _) :: rest, t0, h => by
    obtain ⟨h1, _, h3⟩ := h
    exact le_trans h1 (lastTime_ge rest t h3)

/-- trigger_process on a rising edge with a positive pulse duration: the
pulse (re)starts at the current time and the output is high. -/
theorem trigger_process_rise_pos (ctx : TriggerContext) (t : Nat)
    (hl : ctx.last_input = false) (hd : 0 < ctx.pulse_duration_ms) (hU : t < U32) :
    (trigger_process ctx true t).1 =
      { output_state := true, last_input := true, pulse_start := t,
        pulse_duration_ms := ctx.pulse_duration_ms } := by
  have hm : t % U32 = t := umod_eq_self hU
  have hz : wsub t t = 0 := wsub_self hU
  simp [trigger_process, hl, hm, hz, Nat.not_le.mpr hd]

/-- trigger_process on a rising edge with pulse duration zero: the pulse
expires within the same call. -/
theorem trigger_process_rise_zero (ctx : TriggerContext) (t : Nat)
    (hl : ctx.last_input = false) (hd : ctx.pulse_duration_ms = 0) (hU : t < U32) :
    (trigger_process ctx true t).1 =
      { output_state := false, last_input := true, pulse_start := t,
        pulse_duration_ms := ctx.pulse_duration_ms } := by
  have hm : t % U32 = t := umod_eq_self hU
  have hz : wsub t t = 0 := wsub_self hU
  simp [trigger_process, hl, hm, hz, hd]

/-- trigger_process without a rising edge while the output is low: only
last_input changes. -/
theorem trigger_process_idle (ctx : TriggerContext) (i : Bool) (t : Nat)
    (h : (i && !ctx.last_input) = false) (ho : ctx.output_state = false) :
    (trigger_process ctx i t).1 = { ctx with last_input := i } := by
  simp [trigger_process, h, ho]

/-- trigger_process without a rising edge during a live pulse: only
last_input changes. -/
theorem trigger_process_live (ctx : TriggerContext) (i : Bool) (t : Nat)
    (h : (i && !ctx.last_input) = false) (ho : ctx.output_state = true)
    (hps : ctx.pulse_start ≤ t) (hU : t < U32)
    (hlt : t - ctx.pulse_start < ctx.pulse_duration_ms) :
    (trigger_process ctx i t).1 = { ctx with last_input := i } := by
  have hm : t % U32 = t := umod_eq_self hU
  have hw : wsub t ctx.pulse_start = t - ctx.pulse_start := wsub_eq_sub hps hU
  simp [trigger_process, h, ho, hm, hw, Nat.not_le.mpr hlt]

/-- trigger_process without a rising edge when the pulse deadline has been
reached: the output is cleared. -/
theorem trigger_process_expire (ctx : TriggerContext) (i : Bool) (t : Nat)
    (h : (i && !ctx.last_input) = false) (ho : ctx.output_state = true)
    (hps : ctx.pulse_start ≤ t) (hU : t < U32)
    (hge : ctx.pulse_duration_ms ≤ t - ctx.pulse_start) :
    (trigger_process ctx i t).1 = { ctx with output_state := false, last_input := i } := by
  have hm : t % U32 = t := umod_eq_self hU
  have hw : wsub t ctx.pulse_start = t - ctx.pulse_start := wsub_eq_sub hps hU
  simp [trigger_process, h, ho, hm, hw, hge]

/-- Characterization of a trigger_process run: the output is high after the
run exactly when the most recent rising edge is strictly less than
pulse_duration_ms before the last call time (or, with no rising edge in the
trace, when the incoming pulse is still live at the last call time). -/
theorem trigger_run_char :
    ∀ (trace : List (Nat × Bool)) (ctx : TriggerContext) (t0 : Nat),
      t0 < U32 → timesOK t0 trace →
      (ctx.output_state = true →
        ctx.pulse_start ≤ t0 ∧ t0 - ctx.pulse_start < ctx.pulse_duration_ms) →
      ((trigger_run ctx trace).output_state = true ↔
        match lastRiseTime ctx.last_input trace with
        | some r => lastTime t0 trace - r < ctx.pulse_duration_ms
        | none =>
          ctx.output_state = true ∧
            lastTime t0 trace - ctx.pulse_start < ctx.pulse_duration_ms)
  | [], ctx, t0, _, _, hinv => by
    simp only [trigger_run, lastRiseTime, lastTime]
    constructor
    · intro ho
      exact ⟨ho, (hinv ho).2⟩
    · intro h
      exact h.1
  | (t, i) :: rest, ctx, t0, hU, ht, hinv => by
    obtain ⟨ht0, htU, hrest⟩ := ht
    simp only [trigger_run, lastRiseTime, lastTime]
    by_cases hrise : (i && !ctx.last_input) = true
    · have hi : i = true := by
        rcases Bool.and_eq_true_iff.mp hrise with ⟨h1, _⟩
        exact h1
      have hl : ctx.last_input = false := by
        rcases Bool.and_eq_true_iff.mp hrise with ⟨_, h2⟩
        simpa using h2
      subst hi
      rcases Nat.eq_zero_or_pos ctx.pulse_duration_ms with hd | hd
      · rw [trigger_process_rise_zero ctx t hl hd htU]
        have ihr := trigger_run_char rest
          { output_state := false, last_input := true, pulse_start := t,
            pulse_duration_ms := ctx.pulse_duration_ms } t htU hrest (by simp)
        cases hlr : lastRiseTime true rest with
        | some r =>
          rw [hlr] at ihr
          simpa [hlr] using ihr
        | none =>
          rw [hlr] at ihr
          simp only [hlr] at ihr ⊢
          simp only [hrise]
          simp at ihr
          simp only [hd] at ihr ⊢
          simp [ihr]
      · rw [trigger_process_rise_pos ctx t hl hd htU]
        have ihr := trigger_run_char rest
          { output_state := true, last_input := true, pulse_start := t,
            pulse_duration_ms := ctx.pulse_duration_ms } t htU hrest
          (by intro _; exact ⟨le_rfl, by simpa using hd⟩)
        cases hlr : lastRiseTime true rest with
        | some r =>
          rw [hlr] at ihr
          simpa [hlr] using ihr
        | none =>
          rw [hlr] at ihr
          simp only [hlr] at ihr ⊢
          simp only [hrise]
          simp at ihr
          simpa using ihr
    · have hrise' : (i && !ctx.last_input) = false := by
        simpa using hrise
      by_cases ho : ctx.output_state = true
      · by_cases hexp : ctx.pulse_duration_ms ≤ t - ctx.pulse_start
        · rw [trigger_process_expire ctx i t hrise' ho
            (le_trans (hinv ho).1 ht0) htU hexp]
          have ihr := trigger_run_char rest
            { ctx with output_state := false, last_input := i } t htU hrest (by simp)
          cases hlr : lastRiseTime i rest with
          | some r =>
            rw [hlr] at ihr
            simpa [hlr] using ihr
          | none =>
            rw [hlr] at ihr
            simp only [hlr] at ihr ⊢
            simp only [hrise']
            simp at ihr
            have hlast : t ≤ lastTime t rest := lastTime_ge rest t hrest
            have hbound : ctx.pulse_duration_ms ≤ lastTime t rest - ctx.pulse_start :=
              le_trans hexp (Nat.sub_le_sub_right hlast _)
            simp [ihr, ho]
            exact hbound
        · rw [trigger_process_live ctx i t hrise' ho
            (le_trans (hinv ho).1 ht0) htU (Nat.not_le.mp hexp)]
          have ihr := trigger_run_char rest
            { ctx with last_input := i } t htU hrest
            (by intro _; exact ⟨le_trans (hinv ho).1 ht0, Nat.not_le.mp hexp⟩)
          cases hlr : lastRiseTime i rest with
          | some r =>
            rw [hlr] at ihr
            simpa [hlr] using ihr
          | none =>
            rw [hlr] at ihr
            simp only [hlr] at ihr ⊢
            simp only [hrise']
            simpa [ho] using ihr
      · have ho' : ctx.output_state = false := by
          simpa using ho
        rw [trigger_process_idle ctx i t hrise' ho']
        have ihr := trigger_run_char rest
          { ctx with last_input := i } t htU hrest (by simp [ho'])
        cases hlr : lastRiseTime i rest with
        | some r =>
          rw [hlr] at ihr
          simpa [hlr] using ihr
        | none =>
          rw [hlr] at ihr
          simp only [hlr] at ihr ⊢
          simp only [hrise']
          simpa [ho'] using ihr

/-- C2: for the Trigger mode handler a rising edge while a pulse is active
restarts the pulse timer from that edge: over every call trace with a
monotone clock, the output after the trace is high exactly when the time of
the most recent rising edge is strictly less than pulse_duration_ms before
the last call time, so the output is cleared on the first process call at or
after pulse_duration_ms from the most recent rising edge — in particular
with pulse_duration_ms = 10 and edges at t = 0 and t = 5 it is still high at
t = 14 and low at t = 15 (witness). -/
theorem claim2_trigger_restart (d : Nat) (trace : List (Nat × Bool))
    (h : timesOK 0 trace) :
    ((trigger_run (trigger_init d) trace).output_state = true ↔
      ∃ r, lastRiseTime false trace = some r ∧ lastTime 0 trace - r < d) := by
  have hc := trigger_run_char trace (trigger_init d) 0
    (by norm_num [U32]) h (by simp [trigger_init])
  dsimp only [trigger_init] at hc ⊢
  cases hlr : lastRiseTime false trace with
  | some r =>
    rw [hlr] at hc
    rw [hc]
    constructor
    · intro hx
      exact ⟨r, rfl, hx⟩
    · rintro ⟨r', hr', hx⟩
      cases hr'
      exact hx
  | none =>
    rw [hlr] at hc
    simp at hc
    simp [hc]

/-- C2 witness: pulse_duration_ms = 10, rising edges at t = 0 and t = 5,
output still high at the call at t = 14 (it would already be low there had
the timer not been restarted at t = 5). -/
theorem claim2_witness :
    (trigger_run (trigger_init 10)
      [(0, true), (2, false), (5, true), (14, true)]).output_state = true :=
  (claim2_trigger_restart 10 [(0, true), (2, false), (5, true), (14, true)]
    (by decide)).mpr ⟨5, by decide, by decide⟩

-- =========================================================================
-- Claim C1 (amended part)
-- =========================================================================

/-- cv_output_update_pulse on a rising edge: the pulse (re)starts at the
current time, whether or not a pulse was already active. -/
theorem cvp_rise (c : CVOutput) (t : Nat)
    (hl : c.last_input_state = false) (hU : t < U32) :
    (cv_output_update_pulse c true t).1 =
      { pin := c.pin, state := true, pulse_start_time := t, pulse_active := true,
        last_input_state := true } := by
  have hm : t % U32 = t := umod_eq_self hU
  have hz : wsub t t = 0 := wsub_self hU
  simp [cv_output_update_pulse, cv_output_set, cv_output_clear, hm, hz, hl,
    PULSE_DURATION_MS]

/-- cv_output_update_pulse without a rising edge and with no active pulse:
only last_input_state changes. -/
theorem cvp_idle (c : CVOutput) (i : Bool) (t : Nat)
    (h : (i && !c.last_input_state) = false) (ha : c.pulse_active = false) :
    (cv_output_update_pulse c i t).1 = { c with last_input_state := i } := by
  simp [cv_output_update_pulse, h, ha]

/-- cv_output_update_pulse without a rising edge during a live pulse: only
last_input_state changes. -/
theorem cvp_live (c : CVOutput) (i : Bool) (t : Nat)
    (h : (i && !c.last_input_state) = false) (ha : c.pulse_active = true)
    (hps : c.pulse_start_time ≤ t) (hU : t < U32)
    (hlt : t - c.pulse_start_time < PULSE_DURATION_MS) :
    (cv_output_update_pulse c i t).1 = { c with last_input_state := i } := by
  have hm : t % U32 = t := umod_eq_self hU
  have hw : wsub t c.pulse_start_time = t - c.pulse_start_time :=
    wsub_eq_sub hps hU
  simp [cv_output_update_pulse, h, ha, hm, hw, Nat.not_le.mpr hlt]

/-- cv_output_update_pulse without a rising edge once the pulse deadline has
been reached: the pulse ends, output and pulse_active are cleared. -/
theorem cvp_expire (c : CVOutput) (i : Bool) (t : Nat)
    (h : (i && !c.last_input_state) = false) (ha : c.pulse_active = true)
    (hps : c.pulse_start_time ≤ t) (hU : t < U32)
    (hge : PULSE_DURATION_MS ≤ t - c.pulse_start_time) :
    (cv_output_update_pulse c i t).1 =
      { c with state := false, pulse_active := false, last_input_state := i } := by
  have hm : t % U32 = t := umod_eq_self hU
  have hw : wsub t c.pulse_start_time = t - c.pulse_start_time :=
    wsub_eq_sub hps hU
  simp [cv_output_update_pulse, cv_output_clear, h, ha, hm, hw, hge]

/-- Characterization of a cv_output_update_pulse run: the output is high
after the run exactly when the most recent rising edge is strictly less
than PULSE_DURATION_MS before the last call time (or, with no rising edge
in the trace, when the incoming pulse is still live there). -/
theorem cv_pulse_run_char :
    ∀ (trace : List (Nat × Bool)) (c : CVOutput) (t0 : Nat),
      t0 < U32 → timesOK t0 trace →
      c.pulse_active = c.state →
      (c.state = true →
        c.pulse_start_time ≤ t0 ∧ t0 - c.pulse_start_time < PULSE_DURATION_MS) →
      ((cv_pulse_run c trace).state = true ↔
        match lastRiseTime c.last_input_state trace with
        | some r => lastTime t0 trace - r < PULSE_DURATION_MS
        | none =>
          c.state = true ∧
            lastTime t0 trace - c.pulse_start_time < PULSE_DURATION_MS)
  | [], c, t0, _, _, _, hinv => by
    simp only [cv_pulse_run, lastRiseTime, lastTime]
    constructor
    · intro ho
      exact ⟨ho, (hinv ho).2⟩
    · intro h
      exact h.1
  | (t, i) :: rest, c, t0, hU, ht, hact, hinv => by
    obtain ⟨ht0, htU, hrest⟩ := ht
    simp only [cv_pulse_run, lastRiseTime, lastTime]
    by_cases hrise : (i && !c.last_input_state) = true
    · have hi : i = true := by
        rcases Bool.and_eq_true_iff.mp hrise with ⟨h1, _⟩
        exact h1
      have hl : c.last_input_state = false := by
        rcases Bool.and_eq_true_iff.mp hrise with ⟨_, h2⟩
        simpa using h2
      subst hi
      rw [cvp_rise c t hl htU]
      have ihr := cv_pulse_run_char rest
        { pin := c.pin, state := true, pulse_start_time := t, pulse_active := true,
          last_input_state := true } t htU hrest rfl
        (by intro _; exact ⟨le_rfl, by norm_num [PULSE_DURATION_MS]⟩)
      cases hlr : lastRiseTime true rest with
      | some r =>
        rw [hlr] at ihr
        simpa [hlr] using ihr
      | none =>
        rw [hlr] at ihr
        simp only [hlr] at ihr ⊢
        simp only [hrise]
        simp at ihr
        simpa using ihr
    · have hrise' : (i && !c.last_input_state) = false := by
        simpa using hrise
      by_cases ha : c.pulse_active = true
      · have ho : c.state = true := hact ▸ ha
        by_cases hexp : PULSE_DURATION_MS ≤ t - c.pulse_start_time
        · rw [cvp_expire c i t hrise' ha (le_trans (hinv ho).1 ht0) htU hexp]
          have ihr := cv_pulse_run_char rest
            { c with state := false, pulse_active := false, last_input_state := i }
            t htU hrest rfl (by simp)
          cases hlr : lastRiseTime i rest with
          | some r =>
            rw [hlr] at ihr
            simpa [hlr] using ihr
          | none =>
            rw [hlr] at ihr
            simp only [hlr] at ihr ⊢
            simp only [hrise']
            simp at ihr
            have hlast : t ≤ lastTime t rest := lastTime_ge rest t hrest
            have hbound : PULSE_DURATION_MS ≤ lastTime t rest - c.pulse_start_time :=
              le_trans hexp (Nat.sub_le_sub_right hlast _)
            simp [ihr, ho]
            exact hbound
        · rw [cvp_live c i t hrise' ha (le_trans (hinv ho).1 ht0) htU
            (Nat.not_le.mp hexp)]
          have ihr := cv_pulse_run_char rest
            { c with last_input_state := i } t htU hrest hact
            (by intro _; exact ⟨le_trans (hinv ho).1 ht0, Nat.not_le.mp hexp⟩)
          cases hlr : lastRiseTime i rest with
          | some r =>
            rw [hlr] at ihr
            simpa [hlr] using ihr
          | none =>
            rw [hlr] at ihr
            simp only [hlr] at ihr ⊢
            simp only [hrise']
            simpa [ho] using ihr
      · have ha' : c.pulse_active = false := by
          simpa using ha
        have ho : c.state = false := by
          rw [← hact, ha']
        rw [cvp_idle c i t hrise' ha']
        have ihr := cv_pulse_run_char rest
          { c with last_input_state := i } t htU hrest hact (by simp [ho])
        cases hlr : lastRiseTime i rest with
        | some r =>
          rw [hlr] at ihr
          simpa [hlr] using ihr
        | none =>
          rw [hlr] at ihr
          simp only [hlr] at ihr ⊢
          simp only [hrise']
          simpa [ho] using ihr

/-- C1, amended: a rising edge of the input arriving while a pulse is
already active does restart the pulse timer (exactly as the Trigger mode
handler does): over every call trace with a monotone clock from a freshly
initialized CVOutput, the output is high after the trace exactly when the
most recent rising edge is strictly less than PULSE_DURATION_MS before the
last call time, so the pulse ends at the first update at or after
PULSE_DURATION_MS from the most recent rising edge, not from the original
pulse start. (Input merely held high produces no rising edge and hence no
restart, which is the scenario the repository's NoRetrigger unit test
exercises.) -/
theorem claim1_amended (pin : Nat) (trace : List (Nat × Bool))
    (h : timesOK 0 trace) :
    ((cv_pulse_run (cv_output_init pin) trace).state = true ↔
      ∃ r, lastRiseTime false trace = some r ∧
        lastTime 0 trace - r < PULSE_DURATION_MS) := by
  have hc := cv_pulse_run_char trace (cv_output_init pin) 0
    (by norm_num [U32]) h rfl (by simp [cv_output_init])
  cases hlr : lastRiseTime false trace with
  | some r =>
    rw [show (cv_output_init pin).last_input_state = false from rfl, hlr] at hc
    rw [hc]
    constructor
    · intro hx
      exact ⟨r, rfl, hx⟩
    · rintro ⟨r', hr', hx⟩
      cases hr'
      exact hx
  | none =>
    rw [show (cv_output_init pin).last_input_state = false from rfl, hlr] at hc
    simp [cv_output_init] at hc
    simp [cv_output_init, hc]

/-- C1 witness: rising edges at t = 0 and t = 5, output still high at the
call at t = 14 because the t = 5 edge restarted the timer. -/
theorem claim1_witness :
    (cv_pulse_run (cv_output_init 0)
      [(0, true), (3, false), (5, true), (14, true)]).state = true :=
  (claim1_amended 0 [(0, true), (3, false), (5, true), (14, true)]
    (by decide)).mpr ⟨5, by decide, by decide⟩

-- =========================================================================
-- Claim C4
-- =========================================================================

/-- Shape of the tap phase: only tap_count is modified on the Button. -/
theorem detect_tap_phase_shape (b : Button) (s : GestureStatics) (ct : Nat) :
    ∃ k s1, detect_tap_phase b s ct = ({ b with tap_count := k }, s1) := by
  unfold detect_tap_phase
  by_cases h1 : b.rising_edge = true
  · rw [if_pos h1]
    by_cases h2 : wsub ct s.last_tap_time ≤ TAP_TIMEOUT_MS
    · rw [if_pos h2]
      exact ⟨_, _, rfl⟩
    · rw [if_neg h2]
      exact ⟨_, _, rfl⟩
  · rw [if_neg h1]
    exact ⟨b.tap_count, s, rfl⟩

/-- Shape of the hold phase: only tap_count is modified on the Button. -/
theorem detect_hold_phase_shape (b : Button) (s : GestureStatics) (ct : Nat) :
    ∃ k s1 a, detect_hold_phase b s ct = ({ b with tap_count := k }, s1, a) := by
  unfold detect_hold_phase
  by_cases h1 : (s.counting_hold && b.pressed) = true
  · rw [if_pos h1]
    by_cases h2 : wsub ct s.last_tap_time ≥ HOLD_TIME_MS
    · rw [if_pos h2]
      exact ⟨_, _, _, rfl⟩
    · rw [if_neg h2]
      exact ⟨b.tap_count, s, false, rfl⟩
  · rw [if_neg h1]
    exact ⟨b.tap_count, s, false, rfl⟩

/-- Shape of the release phase: only tap_count is modified on the Button. -/
theorem detect_release_phase_shape (b : Button) (s : GestureStatics) (ct : Nat) :
    ∃ k s1, detect_release_phase b s ct = ({ b with tap_count := k }, s1) := by
  unfold detect_release_phase
  by_cases h1 : (!b.pressed) = true
  · rw [if_pos h1]
    by_cases h2 : wsub ct s.last_tap_time > TAP_TIMEOUT_MS
    · rw [if_pos h2]
      exact ⟨_, _, rfl⟩
    · rw [if_neg h2]
      exact ⟨b.tap_count, _, rfl⟩
  · rw [if_neg h1]
    exact ⟨b.tap_count, s, rfl⟩

/-- Shape of button_detect_config_action's Button result: the function only
ever modifies tap_count. -/
theorem detect_shape (b : Button) (s : GestureStatics) (t : Nat) :
    ∃ k s2 a, button_detect_config_action b s t = ({ b with tap_count := k }, s2, a) := by
  unfold button_detect_config_action
  dsimp only
  obtain ⟨k1, s1, h1⟩ := detect_tap_phase_shape b s (t % U32)
  rw [h1]
  dsimp only
  obtain ⟨k2, s2, a, h2⟩ := detect_hold_phase_shape { b with tap_count := k1 } s1 (t % U32)
  rw [h2]
  dsimp only
  obtain ⟨k3, s3, h3⟩ :=
    detect_release_phase_shape { b with tap_count := k2 } s2 (t % U32)
  rw [h3]
  exact ⟨k3, s3, a, rfl⟩

/-- Edge phase of button_update: the pin sample, rising-edge and
falling-edge stages, before the config-action detection. -/
def buttonEdgePhase (b : Button) (raw : Bool) (t : Nat) : Button :=
  let b := { b with raw_state := raw, rising_edge := false, falling_edge := false }
  let br := button_has_rising_edge b t
  let b := if br.2 then { br.1 with rising_edge := true, pressed := true } else br.1
  let bf := button_has_falling_edge b t
  if bf.2 then { bf.1 with falling_edge := true, pressed := false } else bf.1

/-- button_update is the edge phase followed by gesture detection, the
config_action latch and the last_state update. -/
theorem button_update_eq (b : Button) (s : GestureStatics) (raw : Bool) (t : Nat) :
    button_update b s raw t =
      (let b3 := buttonEdgePhase b raw t
       let bsa := button_detect_config_action b3 s t
       let b4 := if bsa.2.2 then { bsa.1 with config_action := true } else bsa.1
       ({ b4 with last_state := b4.pressed }, bsa.2.1)) := rfl

/-- The Button result of button_update agrees with the edge phase on every
field except tap_count, config_action and last_state (and last_state is the
edge phase's pressed value). -/
theorem button_update_fields (b : Button) (s : GestureStatics) (raw : Bool) (t : Nat) :
    ∃ k cfg, (button_update b s raw t).1 =
      { buttonEdgePhase b raw t with
          tap_count := k, config_action := cfg,
          last_state := (buttonEdgePhase b raw t).pressed } := by
  rw [button_update_eq]
  obtain ⟨k, s2, a, hd⟩ := detect_shape (buttonEdgePhase b raw t) s t
  dsimp only
  rw [hd]
  dsimp only
  by_cases ha : a = true
  · subst ha
    exact ⟨k, true, rfl⟩
  · rw [if_neg ha]
    exact ⟨k, (buttonEdgePhase b raw t).config_action, rfl⟩

/-- Condition under which a button_update call at time t reports a rising
edge, exactly the test of button_has_rising_edge on the freshly sampled
state. -/
def riseReported (b : Button) (raw : Bool) (t : Nat) : Prop :=
  raw = true ∧ b.last_state = false ∧
    EDGE_DEBOUNCE_MS < wsub (t % U32) b.last_rise_time

instance (b : Button) (raw : Bool) (t : Nat) : Decidable (riseReported b raw t) := by
  unfold riseReported
  exact inferInstance

/-- Equation for button_has_rising_edge when it accepts an edge. -/
theorem has_rising_edge_eq_pos (b : Button) (t : Nat)
    (h1 : (b.raw_state && !b.last_state) = true)
    (h2 : wsub (t % U32) b.last_rise_time > EDGE_DEBOUNCE_MS) :
    button_has_rising_edge b t = ({ b with last_rise_time := t % U32 }, true) := by
  unfold button_has_rising_edge
  rw [if_pos h1, if_pos h2]

/-- Equation for button_has_rising_edge when it reports no edge. -/
theorem has_rising_edge_eq_neg (b : Button) (t : Nat)
    (h : (b.raw_state && !b.last_state) = false ∨
      ¬ wsub (t % U32) b.last_rise_time > EDGE_DEBOUNCE_MS) :
    button_has_rising_edge b t = (b, false) := by
  unfold button_has_rising_edge
  rcases h with h | h
  · rw [if_neg (by simp [h])]
  · by_cases h1 : (b.raw_state && !b.last_state) = true
    · rw [if_pos h1, if_neg h]
    · rw [if_neg h1]

/-- Equation for button_has_falling_edge when it accepts an edge. -/
theorem has_falling_edge_eq_pos (b : Button) (t : Nat)
    (h1 : (!b.raw_state && b.last_state) = true)
    (h2 : wsub (t % U32) b.last_fall_time > EDGE_DEBOUNCE_MS) :
    button_has_falling_edge b t = ({ b with last_fall_time := t % U32 }, true) := by
  unfold button_has_falling_edge
  rw [if_pos h1, if_pos h2]

/-- Equation for button_has_falling_edge when it reports no edge. -/
theorem has_falling_edge_eq_neg (b : Button) (t : Nat)
    (h : (!b.raw_state && b.last_state) = false ∨
      ¬ wsub (t % U32) b.last_fall_time > EDGE_DEBOUNCE_MS) :
    button_has_falling_edge b t = (b, false) := by
  unfold button_has_falling_edge
  rcases h with h | h
  · rw [if_neg (by simp [h])]
  · by_cases h1 : (!b.raw_state && b.last_state) = true
    · rw [if_pos h1, if_neg h]
    · rw [if_neg h1]

/-- Rising-edge flag and last_rise_time of the edge phase. -/
theorem buttonEdgePhase_rising (b : Button) (raw : Bool) (t : Nat) :
    ((buttonEdgePhase b raw t).rising_edge = true ↔ riseReported b raw t) ∧
    (buttonEdgePhase b raw t).last_rise_time =
      (if riseReported b raw t then t % U32 else b.last_rise_time) := by
  unfold buttonEdgePhase
  dsimp only
  by_cases h1 : (raw && !b.last_state) = true
  · have hraw : raw = true := (Bool.and_eq_true_iff.mp h1).1
    have hls : b.last_state = false := by
      have h2 := (Bool.and_eq_true_iff.mp h1).2
      simpa using h2
    subst hraw
    by_cases h2 : wsub (t % U32) b.last_rise_time > EDGE_DEBOUNCE_MS
    · rw [has_rising_edge_eq_pos _ t (by simpa using h1) (by simpa using h2)]
      dsimp only
      rw [if_pos rfl]
      rw [has_falling_edge_eq_neg _ t (Or.inl (by simp))]
      dsimp only
      rw [if_neg Bool.false_ne_true]
      have hrep : riseReported b true t := ⟨rfl, hls, h2⟩
      simp [hrep]
    · rw [has_rising_edge_eq_neg _ t (Or.inr (by simpa using h2))]
      dsimp only
      rw [if_neg Bool.false_ne_true]
      rw [has_falling_edge_eq_neg _ t (Or.inl (by simp))]
      dsimp only
      rw [if_neg Bool.false_ne_true]
      have hnrep : ¬ riseReported b true t := by
        intro hr
        exact h2 hr.2.2
      simp [hnrep]
  · have hnrep : ¬ riseReported b raw t := by
      intro hr
      apply h1
      rw [hr.1, hr.2.1]
      rfl
    rw [has_rising_edge_eq_neg _ t (Or.inl (by simpa using h1))]
    dsimp only
    rw [if_neg Bool.false_ne_true]
    by_cases h3 : (!raw && b.last_state) = true
    · by_cases h4 : wsub (t % U32) b.last_fall_time > EDGE_DEBOUNCE_MS
      · rw [has_falling_edge_eq_pos _ t (by simpa using h3) (by simpa using h4)]
        dsimp only
        rw [if_pos rfl]
        simp [hnrep]
      · rw [has_falling_edge_eq_neg _ t (Or.inr (by simpa using h4))]
        dsimp only
        rw [if_neg Bool.false_ne_true]
        simp [hnrep]
    · rw [has_falling_edge_eq_neg _ t (Or.inl (by simpa using h3))]
      dsimp only
      rw [if_neg Bool.false_ne_true]
      simp [hnrep]

/-- button_update reports a rising edge exactly under riseReported, and
updates last_rise_time exactly when it reports one. -/
theorem button_update_rising_char (b : Button) (s : GestureStatics) (raw : Bool)
    (t : Nat) :
    ((button_update b s raw t).1.rising_edge = true ↔ riseReported b raw t) ∧
    (button_update b s raw t).1.last_rise_time =
      (if riseReported b raw t then t % U32 else b.last_rise_time) := by
  obtain ⟨k, cfg, hf⟩ := button_update_fields b s raw t
  rw [hf]
  dsimp only
  exact buttonEdgePhase_rising b raw t

/-- Every rising edge reported during a run comes strictly more than
EDGE_DEBOUNCE_MS after the incoming last_rise_time, and not before the
trace's time floor. -/
theorem risingTimes_gt :
    ∀ (trace : List (Nat × Bool)) (b : Button) (s : GestureStatics) (t0 : Nat),
      timesOK t0 trace → b.last_rise_time ≤ t0 →
      ∀ u ∈ risingTimes b s trace,
        EDGE_DEBOUNCE_MS < u - b.last_rise_time ∧ t0 ≤ u
  | [], _, _, _, _, _ => by
    intro u hu
    simp [risingTimes] at hu
  | (t, raw) :: rest, b, s, t0, ht, hlr => by
    obtain ⟨ht0, htU, hrest⟩ := ht
    intro u hu
    simp only [risingTimes] at hu
    rw [List.mem_append] at hu
    obtain ⟨hchar, hlast⟩ := button_update_rising_char b s raw t
    have hlrt : b.last_rise_time ≤ t := le_trans hlr ht0
    rcases hu with hu | hu
    · by_cases hr : (button_update b s raw t).1.rising_edge = true
      · rw [if_pos hr] at hu
        have hut : u = t := by
          simpa using hu
        subst hut
        have hrep := hchar.mp hr
        have hdb := hrep.2.2
        rw [umod_eq_self htU, wsub_eq_sub hlrt htU] at hdb
        exact ⟨hdb, ht0⟩
      · rw [if_neg hr] at hu
        simp at hu
    · have hlr2 : (button_update b s raw t).1.last_rise_time ≤ t := by
        rw [hlast]
        by_cases hrep : riseReported b raw t
        · rw [if_pos hrep, umod_eq_self htU]
        · rw [if_neg hrep]
          exact hlrt
      have hmono : b.last_rise_time ≤ (button_update b s raw t).1.last_rise_time := by
        rw [hlast]
        by_cases hrep : riseReported b raw t
        · rw [if_pos hrep, umod_eq_self htU]
          exact hlrt
        · rw [if_neg hrep]
      have hrec := risingTimes_gt rest (button_update b s raw t).1
        (button_update b s raw t).2 t hrest hlr2 u hu
      constructor
      · omega
      · omega

/-- Any two rising edges reported during a run of button_update calls are
separated by strictly more than EDGE_DEBOUNCE_MS. -/
theorem risingTimes_pairwise :
    ∀ (trace : List (Nat × Bool)) (b : Button) (s : GestureStatics) (t0 : Nat),
      timesOK t0 trace → b.last_rise_time ≤ t0 →
      List.Pairwise (fun a c => EDGE_DEBOUNCE_MS < c - a) (risingTimes b s trace)
  | [], _, _, _, _, _ => by
    simp [risingTimes]
  | (t, raw) :: rest, b, s, t0, ht, hlr => by
    obtain ⟨ht0, htU, hrest⟩ := ht
    obtain ⟨hchar, hlast⟩ := button_update_rising_char b s raw t
    simp only [risingTimes]
    by_cases hr : (button_update b s raw t).1.rising_edge = true
    · rw [if_pos hr]
      have hlr_new : (button_update b s raw t).1.last_rise_time = t := by
        rw [hlast, if_pos (hchar.mp hr), umod_eq_self htU]
      rw [List.singleton_append, List.pairwise_cons]
      constructor
      · intro u hu
        have := risingTimes_gt rest (button_update b s raw t).1
          (button_update b s raw t).2 t hrest (le_of_eq hlr_new) u hu
        rw [hlr_new] at this
        exact this.1
      · exact risingTimes_pairwise rest (button_update b s raw t).1
          (button_update b s raw t).2 t hrest (le_of_eq hlr_new)
    · rw [if_neg hr]
      rw [List.nil_append]
      have hlr2 : (button_update b s raw t).1.last_rise_time ≤ t := by
        rw [hlast]
        by_cases hrep : riseReported b raw t
        · rw [if_pos hrep, umod_eq_self htU]
        · rw [if_neg hrep]
          exact le_trans hlr ht0
      exact risingTimes_pairwise rest (button_update b s raw t).1
        (button_update b s raw t).2 t hrest hlr2

/-- C4: for every freshly initialized Button, every shared-statics value and
every sequence of button_update calls with a monotonically non-decreasing
clock, any two rising edges reported by the run are separated by strictly
more than EDGE_DEBOUNCE_MS; moreover a raw rising edge occurring at or
before EDGE_DEBOUNCE_MS (measured by the same-direction uint32 difference
from the previously recorded rising edge) is rejected: the call reports no
rising edge. -/
theorem claim4_edge_separation (pin : Nat) (s0 : GestureStatics)
    (trace : List (Nat × Bool)) (h : timesOK 0 trace) :
    List.Pairwise (fun a c => EDGE_DEBOUNCE_MS < c - a)
      (risingTimes (button_init pin) s0 trace) ∧
    ∀ (b : Button) (s : GestureStatics) (raw : Bool) (t : Nat),
      wsub (t % U32) b.last_rise_time ≤ EDGE_DEBOUNCE_MS →
      (button_update b s raw t).1.rising_edge = false := by
  constructor
  · exact risingTimes_pairwise trace (button_init pin) s0 0 h
      (by simp [button_init, button_reset])
  · intro b s raw t hle
    obtain ⟨hchar, _⟩ := button_update_rising_char b s raw t
    by_cases hr : (button_update b s raw t).1.rising_edge = true
    · exact absurd (hchar.mp hr).2.2 (by omega)
    · simpa using hr

/-- C4 witness: raw edges at t = 6, 9, 30 (with releases in between); the
edge at t = 9 is only 3 ms after the reported edge at t = 6 and is
rejected, so the reported edges are 6 and 30, more than 5 ms apart; and a
call 3 ms after the recorded edge reports nothing. -/
theorem claim4_witness :
    List.Pairwise (fun a c => EDGE_DEBOUNCE_MS < c - a)
      (risingTimes (button_init 0) gestureStaticsInit
        [(6, true), (7, false), (9, true), (20, false), (30, true)]) ∧
    (button_update (button_init 0) gestureStaticsInit true 3).1.rising_edge = false :=
  ⟨(claim4_edge_separation 0 gestureStaticsInit
      [(6, true), (7, false), (9, true), (20, false), (30, true)] (by decide)).1,
   (claim4_edge_separation 0 gestureStaticsInit [] (by decide)).2
     (button_init 0) gestureStaticsInit true 3 (by decide)⟩

-- =========================================================================
-- Claim C8
-- =========================================================================

/-- divide_init from mode_handlers.c, parametrized by the resolved divisor:
the C code reads it from a settings-indexed table, or takes a default for an
out-of-range index; the table and default live in a header absent from
src/, so the resolved value is the parameter n. -/
def divide_init (n : Nat) : DivideContext :=
  { output_state := false, last_input := false, counter := 0, divisor := n,
    pulse_start := 0 }

/-- divide_process on the rising edge that reaches the divisor: the counter
resets, the output pulse starts at the current time. -/
theorem divide_process_nth (ctx : DivideContext) (t : Nat)
    (hl : ctx.last_input = false)
    (hc : (ctx.counter + 1) % 256 ≥ ctx.divisor) :
    (divide_process ctx true t).1 =
      { ctx with counter := 0, output_state := true, pulse_start := t % U32,
                 last_input := true } ∧
    (divide_process ctx true t).2 = (true, true) := by
  unfold divide_process
  dsimp only
  rw [if_pos (by simp [hl] : (true && !ctx.last_input) = true), if_pos hc]
  dsimp only
  rw [if_pos (rfl : (true : Bool) = true)]
  have hz : wsub (t % U32) (t % U32) = 0 :=
    wsub_self (Nat.mod_lt t (by norm_num [U32]))
  rw [hz]
  rw [if_neg (by norm_num [OUTPUT_PULSE_MS])]
  exact ⟨rfl, rfl⟩

/-- divide_process on an intermediate rising edge: the counter advances and
no pulse is started (the output can only stay or expire). -/
theorem divide_process_mid (ctx : DivideContext) (t : Nat)
    (hl : ctx.last_input = false)
    (hc : ¬ (ctx.counter + 1) % 256 ≥ ctx.divisor) :
    (divide_process ctx true t).1.counter = (ctx.counter + 1) % 256 ∧
    (divide_process ctx true t).1.divisor = ctx.divisor ∧
    (divide_process ctx true t).1.last_input = true ∧
    (divide_process ctx true t).1.pulse_start = ctx.pulse_start ∧
    ((divide_process ctx true t).1.output_state = true →
      ctx.output_state = true) := by
  unfold divide_process
  dsimp only
  rw [if_pos (by simp [hl] : (true && !ctx.last_input) = true), if_neg hc]
  dsimp only
  by_cases ho : ctx.output_state = true
  · rw [if_pos ho]
    by_cases hexp : wsub (t % U32) ctx.pulse_start ≥ OUTPUT_PULSE_MS
    · rw [if_pos hexp]
      exact ⟨rfl, rfl, rfl, rfl, by intro h; simpa using h⟩
    · rw [if_neg hexp]
      exact ⟨rfl, rfl, rfl, rfl, fun _ => ho⟩
  · rw [if_neg ho]
    exact ⟨rfl, rfl, rfl, rfl, fun h => h⟩

/-- divide_process without a rising edge: counter, divisor and pulse_start
are unchanged, and no pulse is started. -/
theorem divide_process_norise (ctx : DivideContext) (i : Bool) (t : Nat)
    (h : (i && !ctx.last_input) = false) :
    (divide_process ctx i t).1.counter = ctx.counter ∧
    (divide_process ctx i t).1.divisor = ctx.divisor ∧
    (divide_process ctx i t).1.last_input = i ∧
    (divide_process ctx i t).1.pulse_start = ctx.pulse_start ∧
    ((divide_process ctx i t).1.output_state = true →
      ctx.output_state = true) := by
  unfold divide_process
  dsimp only
  rw [if_neg (by simp [h] : ¬ ((i && !ctx.last_input) = true))]
  dsimp only
  by_cases ho : ctx.output_state = true
  · rw [if_pos ho]
    by_cases hexp : wsub (t % U32) ctx.pulse_start ≥ OUTPUT_PULSE_MS
    · rw [if_pos hexp]
      exact ⟨rfl, rfl, rfl, rfl, by intro h2; simpa using h2⟩
    · rw [if_neg hexp]
      exact ⟨rfl, rfl, rfl, rfl, fun _ => ho⟩
  · rw [if_neg ho]
    exact ⟨rfl, rfl, rfl, rfl, fun h2 => h2⟩

/-- divide_process once the divided pulse deadline has been reached with no
new rising edge: the output is cleared. -/
theorem divide_process_expire (ctx : DivideContext) (i : Bool) (t : Nat)
    (h : (i && !ctx.last_input) = false) (ho : ctx.output_state = true)
    (hps : ctx.pulse_start ≤ t) (hU : t < U32)
    (hge : OUTPUT_PULSE_MS ≤ t - ctx.pulse_start) :
    (divide_process ctx i t).1.output_state = false := by
  unfold divide_process
  dsimp only
  rw [if_neg (by simp [h] : ¬ ((i && !ctx.last_input) = true))]
  dsimp only
  rw [if_pos ho]
  rw [umod_eq_self hU, wsub_eq_sub hps hU]
  rw [if_pos hge]

/-- Pulse-start count and final counter of a divide_process run. -/
theorem divide_run_count :
    ∀ (trace : List (Nat × Bool)) (ctx : DivideContext),
      1 ≤ ctx.divisor → ctx.divisor ≤ 255 → ctx.counter < ctx.divisor →
      divide_pulseStarts ctx trace =
        (ctx.counter + riseCount ctx.last_input trace) / ctx.divisor ∧
      (divide_run ctx trace).counter =
        (ctx.counter + riseCount ctx.last_input trace) % ctx.divisor
  | [], ctx, _, _, hlt => by
    simp only [divide_pulseStarts, divide_run, riseCount, Nat.add_zero]
    exact ⟨(Nat.div_eq_of_lt hlt).symm, (Nat.mod_eq_of_lt hlt).symm⟩
  | (t, i) :: rest, ctx, h1, h255, hlt => by
    by_cases hrise : (i && !ctx.last_input) = true
    · have hi : i = true := (Bool.and_eq_true_iff.mp hrise).1
      have hl : ctx.last_input = false := by
        have h2 := (Bool.and_eq_true_iff.mp hrise).2
        simpa using h2
      subst hi
      have h256 : (ctx.counter + 1) % 256 = ctx.counter + 1 :=
        Nat.mod_eq_of_lt (by omega)
      by_cases hc : (ctx.counter + 1) % 256 ≥ ctx.divisor
      · have hceq : ctx.counter + 1 = ctx.divisor := by omega
        obtain ⟨hA, _⟩ := divide_process_nth ctx t hl hc
        have ih := divide_run_count rest (divide_process ctx true t).1
          (by rw [hA]; exact h1) (by rw [hA]; exact h255) (by rw [hA]; exact h1)
        rw [hA] at ih
        dsimp only at ih
        obtain ⟨ihs, ihc⟩ := ih
        simp only [divide_pulseStarts, divide_run, riseCount, hl, Bool.not_false,
          Bool.and_true, Bool.true_and]
        rw [hA]
        rw [ihs, ihc]
        constructor
        · simp only [hc, Nat.zero_add]
          norm_num
          rw [show ctx.counter + (1 + riseCount true rest)
              = riseCount true rest + ctx.divisor from by omega]
          rw [Nat.add_div_right _ h1]
          omega
        · simp only [hc, Nat.zero_add]
          norm_num
          rw [show ctx.counter + (1 + riseCount true rest)
              = ctx.divisor + riseCount true rest from by omega]
          rw [Nat.add_mod_left]
      · obtain ⟨hcc, hdd, hll, _, _⟩ := divide_process_mid ctx t hl hc
        have hc2 : ctx.counter + 1 < ctx.divisor := by omega
        have ih := divide_run_count rest (divide_process ctx true t).1
          (by rw [hdd]; exact h1) (by rw [hdd]; exact h255)
          (by rw [hcc, hdd, h256]; exact hc2)
        rw [hcc, hdd, hll, h256] at ih
        obtain ⟨ihs, ihc⟩ := ih
        simp only [divide_pulseStarts, divide_run, riseCount, hl, Bool.not_false,
          Bool.and_true, Bool.true_and]
        rw [ihs, ihc]
        have hcb : decide ((ctx.counter + 1) % 256 ≥ ctx.divisor) = false := by
          simpa using hc
        simp only [hcb, Bool.and_false, Bool.false_eq_true, if_false, Nat.zero_add]
        norm_num
        constructor
        · congr 1
          omega
        · congr 1
          omega
    · have hrise2 : (i && !ctx.last_input) = false := by
        simpa using hrise
      obtain ⟨hcc, hdd, hll, _, _⟩ := divide_process_norise ctx i t hrise2
      have ih := divide_run_count rest (divide_process ctx i t).1
        (by rw [hdd]; exact h1) (by rw [hdd]; exact h255)
        (by rw [hcc, hdd]; exact hlt)
      rw [hcc, hdd, hll] at ih
      obtain ⟨ihs, ihc⟩ := ih
      simp only [divide_pulseStarts, divide_run, riseCount, hrise2,
        Bool.false_and, Bool.false_eq_true, if_false, Nat.zero_add]
      rw [ihs, ihc]
      exact ⟨rfl, rfl⟩

/-- C8: with divisor N (1 ≤ N ≤ 255, the uint8 range), (i) a rising edge
whose incremented counter reaches N resets the counter to zero, starts the
fixed-duration output pulse at the current time and reports a change;
(ii) an intermediate rising edge only advances the counter, leaves the
pulse bookkeeping alone and starts no pulse; (iii) the pulse ends at the
first call at or after OUTPUT_PULSE_MS from its start; and (iv) over every
input trace from a freshly initialized context, the number of pulse starts
is exactly (number of rising edges) / N and the final counter is the
remainder — exactly one output pulse per N input rising edges. -/
theorem claim8_divide (N : Nat) (h1 : 1 ≤ N) (h255 : N ≤ 255) :
    (∀ (ctx : DivideContext) (t : Nat), ctx.divisor = N →
      ctx.last_input = false → ctx.counter + 1 = N → t < U32 →
      (divide_process ctx true t).1.counter = 0 ∧
      (divide_process ctx true t).1.output_state = true ∧
      (divide_process ctx true t).1.pulse_start = t ∧
      (divide_process ctx true t).2.2 = true) ∧
    (∀ (ctx : DivideContext) (t : Nat), ctx.divisor = N →
      ctx.last_input = false → ctx.counter + 1 < N →
      (divide_process ctx true t).1.counter = ctx.counter + 1 ∧
      (divide_process ctx true t).1.pulse_start = ctx.pulse_start ∧
      ((divide_process ctx true t).1.output_state = true →
        ctx.output_state = true)) ∧
    (∀ (ctx : DivideContext) (i : Bool) (t : Nat), (i && !ctx.last_input) = false →
      ctx.output_state = true → ctx.pulse_start ≤ t → t < U32 →
      OUTPUT_PULSE_MS ≤ t - ctx.pulse_start →
      (divide_process ctx i t).1.output_state = false) ∧
    (∀ trace : List (Nat × Bool),
      divide_pulseStarts (divide_init N) trace = riseCount false trace / N ∧
      (divide_run (divide_init N) trace).counter = riseCount false trace % N) := by
  refine ⟨?_, ?_, ?_, ?_⟩
  · intro ctx t hdn hl hcnt hU
    have hc : (ctx.counter + 1) % 256 ≥ ctx.divisor := by
      rw [Nat.mod_eq_of_lt (by omega)]
      omega
    obtain ⟨hA, hB⟩ := divide_process_nth ctx t hl hc
    rw [hA, hB]
    exact ⟨rfl, rfl, umod_eq_self hU, rfl⟩
  · intro ctx t hdn hl hcnt
    have hc : ¬ (ctx.counter + 1) % 256 ≥ ctx.divisor := by
      rw [Nat.mod_eq_of_lt (by omega)]
      omega
    obtain ⟨hcc, _, _, hpp, hoo⟩ := divide_process_mid ctx t hl hc
    rw [Nat.mod_eq_of_lt (by omega)] at hcc
    exact ⟨hcc, hpp, hoo⟩
  · intro ctx i t hr ho hps hU hge
    exact divide_process_expire ctx i t hr ho hps hU hge
  · intro trace
    have := divide_run_count trace (divide_init N)
      (by simpa [divide_init] using h1) (by simpa [divide_init] using h255)
      (by simpa [divide_init] using h1)
    simpa [divide_init] using this

/-- C8 witness: divisor 2, rising edges at t = 0, 2, 4, 6 (inputs released
in between): two pulse starts, final counter 0; and the nth-edge step at a
concrete context. -/
theorem claim8_witness :
    divide_pulseStarts (divide_init 2)
      [(0, true), (1, false), (2, true), (3, false), (4, true), (5, false),
       (6, true)] = 2 ∧
    (divide_run (divide_init 2)
      [(0, true), (1, false), (2, true), (3, false), (4, true), (5, false),
       (6, true)]).counter = 0 := by
  have h := (claim8_divide 2 (by decide) (by decide)).2.2.2
    [(0, true), (1, false), (2, true), (3, false), (4, true), (5, false),
     (6, true)]
  exact ⟨by rw [h.1]; decide, by rw [h.2]; decide⟩

-- =========================================================================
-- Claim C9 (amended part)
-- =========================================================================

/-- cycle_init from mode_handlers.c, parametrized by the resolved period:
the C code reads it from a settings-indexed tempo table, or takes
CYCLE_DEFAULT_PERIOD_MS for an out-of-range index; the table and default
live in a header absent from src/, so the resolved value is the parameter p. -/
def cycle_init (p : Nat) : CycleContext :=
  { output_state := false, running := true, last_toggle := 0, phase := 0,
    period_ms := p }

/-- Call times 0, 1, ..., T: the 1 ms-dense control loop. -/
def denseTimes (T : Nat) : List Nat := List.range (T + 1)

/-- cycle_process when the half period has elapsed: output toggles and the
toggle time is recorded. -/
theorem cycle_process_toggle (ctx : CycleContext) (i : Bool) (t : Nat)
    (hrun : ctx.running = true) (hlt : ctx.last_toggle ≤ t) (hU : t < U32)
    (hcond : ctx.period_ms / 2 ≤ t - ctx.last_toggle) :
    (cycle_process ctx i t).1.output_state = !ctx.output_state ∧
    (cycle_process ctx i t).1.last_toggle = t ∧
    (cycle_process ctx i t).1.running = true ∧
    (cycle_process ctx i t).1.period_ms = ctx.period_ms := by
  unfold cycle_process
  rw [if_neg (by simp [hrun] : ¬ ((!ctx.running) = true))]
  dsimp only
  rw [umod_eq_self hU, wsub_eq_sub hlt hU]
  rw [if_pos hcond]
  exact ⟨rfl, rfl, hrun, rfl⟩

/-- cycle_process inside the half period: output and toggle time are
unchanged. -/
theorem cycle_process_hold (ctx : CycleContext) (i : Bool) (t : Nat)
    (hrun : ctx.running = true) (hlt : ctx.last_toggle ≤ t) (hU : t < U32)
    (hcond : ¬ ctx.period_ms / 2 ≤ t - ctx.last_toggle) :
    (cycle_process ctx i t).1.output_state = ctx.output_state ∧
    (cycle_process ctx i t).1.last_toggle = ctx.last_toggle ∧
    (cycle_process ctx i t).1.running = true ∧
    (cycle_process ctx i t).1.period_ms = ctx.period_ms := by
  unfold cycle_process
  rw [if_neg (by simp [hrun] : ¬ ((!ctx.running) = true))]
  dsimp only
  rw [umod_eq_self hU, wsub_eq_sub hlt hU]
  rw [if_neg hcond]
  exact ⟨rfl, rfl, hrun, rfl⟩

theorem cycle_run_append (c : CycleContext) :
    ∀ (l1 l2 : List Nat), cycle_run c (l1 ++ l2) = cycle_run (cycle_run c l1) l2
  | [], _ => rfl
  | t :: rest, l2 => by
    simp only [List.cons_append, cycle_run]
    exact cycle_run_append (cycle_process c false t).1 rest l2

/-- Square-wave characterization of cycle_process under 1 ms-dense calls:
after the call at time T, the output is the parity of T divided by the half
period, and last_toggle is the last half-period multiple reached. -/
theorem cycle_run_dense (p : Nat) (hp : 2 ≤ p) :
    ∀ T : Nat, T < U32 →
      (cycle_run (cycle_init p) (denseTimes T)).output_state
        = decide ((T / (p / 2)) % 2 = 1) ∧
      (cycle_run (cycle_init p) (denseTimes T)).last_toggle
        = (p / 2) * (T / (p / 2)) ∧
      (cycle_run (cycle_init p) (denseTimes T)).running = true ∧
      (cycle_run (cycle_init p) (denseTimes T)).period_ms = p := by
  have hh : 1 ≤ p / 2 := by omega
  intro T
  induction T with
  | zero =>
    intro hU
    rw [show denseTimes 0 = [0] from rfl]
    simp only [cycle_run]
    obtain ⟨ho, hl, hr, hpp⟩ := cycle_process_hold (cycle_init p) false 0
      rfl (by simp [cycle_init]) hU (by simp [cycle_init]; omega)
    rw [ho, hl, hr, hpp]
    refine ⟨by simp [cycle_init], by simp [cycle_init], rfl, rfl⟩
  | succ T ih =>
    intro hU
    obtain ⟨iho, ihl, ihr, ihp⟩ := ih (by omega)
    have hrange : denseTimes (T + 1) = denseTimes T ++ [T + 1] := by
      simp [denseTimes, List.range_succ]
    rw [hrange, cycle_run_append]
    simp only [cycle_run]
    set c := cycle_run (cycle_init p) (denseTimes T) with hcdef
    set half := p / 2 with hhalf
    set q := T / half with hqdef
    have hmd : T % half + half * q = T := Nat.mod_add_div T half
    have hm : T % half < half := Nat.mod_lt T (by omega)
    have hlt_le : c.last_toggle ≤ T + 1 := by
      rw [ihl]
      omega
    by_cases hstep : half ≤ (T + 1) - c.last_toggle
    · obtain ⟨ho, hl, hr, hpp⟩ := cycle_process_toggle c false (T + 1) ihr hlt_le hU
        (by rw [ihp]; exact hstep)
      have hmh : T % half + 1 = half := by omega
      have hdiv : T + 1 = half * (q + 1) := by
        rw [Nat.mul_succ]
        omega
      have hq1 : (T + 1) / half = q + 1 := by
        rw [hdiv, Nat.mul_div_cancel_left _ (by omega : 0 < half)]
      refine ⟨?_, ?_, hr, ?_⟩
      · rw [ho, iho, hq1]
        rcases Nat.mod_two_eq_zero_or_one q with hq2 | hq2
        · have hq3 : (q + 1) % 2 = 1 := by omega
          simp [hq2, hq3]
        · have hq3 : (q + 1) % 2 = 0 := by omega
          simp [hq2, hq3]
      · rw [hl, hq1]
        omega
      · rw [hpp]
        exact ihp
    · obtain ⟨ho, hl, hr, hpp⟩ := cycle_process_hold c false (T + 1) ihr hlt_le hU
        (by rw [ihp]; exact hstep)
      have hlt2 : T % half + 1 < half := by omega
      have hT1 : T + 1 = half * q + (T % half + 1) := by omega
      have hq1 : (T + 1) / half = q := by
        rw [hT1, Nat.mul_add_div (by omega : 0 < half),
            Nat.div_eq_of_lt hlt2, Nat.add_zero]
      refine ⟨?_, ?_, hr, ?_⟩
      · rw [ho, iho, hq1]
      · rw [hl, ihl, hq1]
      · rw [hpp]
        exact ihp

/-- C9, amended: (i) cycle_process is wholly independent of its input
argument; (ii) under 1 ms-dense calls the output after the call at time T is
the parity of T / (period_ms / 2), i.e. the square wave flips exactly every
⌊period_ms / 2⌋ ms; hence (iii) when period_ms is even the square-wave
period equals period_ms exactly (for odd period_ms it is period_ms − 1, see
the counterexample). -/
theorem claim9_amended :
    (∀ (ctx : CycleContext) (i1 i2 : Bool) (t : Nat),
      cycle_process ctx i1 t = cycle_process ctx i2 t) ∧
    (∀ p T : Nat, 2 ≤ p → T < U32 →
      (cycle_run (cycle_init p) (denseTimes T)).output_state
        = decide ((T / (p / 2)) % 2 = 1)) ∧
    (∀ p T : Nat, 2 ≤ p → p % 2 = 0 → T + p < U32 →
      (cycle_run (cycle_init p) (denseTimes (T + p))).output_state
        = (cycle_run (cycle_init p) (denseTimes T)).output_state) := by
  refine ⟨fun ctx i1 i2 t => rfl, ?_, ?_⟩
  · intro p T hp hU
    exact (cycle_run_dense p hp T hU).1
  · intro p T hp heven hU
    have h1 := (cycle_run_dense p hp (T + p) hU).1
    have h2 := (cycle_run_dense p hp T (by omega)).1
    rw [h1, h2]
    have hsplit : T + p = T + (p / 2) * 2 := by omega
    have hdiv : (T + p) / (p / 2) = T / (p / 2) + 2 := by
      rw [hsplit, Nat.add_mul_div_left _ _ (by omega : 0 < p / 2)]
    rw [hdiv]
    have hmod : (T / (p / 2) + 2) % 2 = (T / (p / 2)) % 2 := by
      omega
    rw [hmod]

/-- C9 witness: period 4 under dense calls: the output at t = 6 + 4 equals
the output at t = 6 (one full configured period later), and at t = 6 the
output is parity of 6 / 2 = 3, i.e. high. -/
theorem claim9_witness :
    (cycle_run (cycle_init 4) (denseTimes (6 + 4))).output_state
      = (cycle_run (cycle_init 4) (denseTimes 6)).output_state ∧
    (cycle_run (cycle_init 4) (denseTimes 6)).output_state
      = decide ((6 / (4 / 2)) % 2 = 1) :=
  ⟨claim9_amended.2.2 4 6 (by norm_num) (by norm_num) (by norm_num [U32]),
   claim9_amended.2.1 4 6 (by norm_num) (by norm_num [U32])⟩

-- =========================================================================
-- Claim C3 (amended part): step equations for the gesture machinery
-- =========================================================================

theorem tap_phase_rise_low (b : Button) (s : GestureStatics) (ct : Nat)
    (hre : b.rising_edge = true)
    (hw : wsub ct s.last_tap_time ≤ TAP_TIMEOUT_MS)
    (h5 : ¬ (b.tap_count + 1) % 256 ≥ TAPS_TO_CHANGE) :
    detect_tap_phase b s ct =
      ({ b with tap_count := (b.tap_count + 1) % 256 },
       ⟨ct, s.counting_hold⟩) := by
  unfold detect_tap_phase
  rw [if_pos hre, if_pos hw]
  dsimp only
  rw [if_neg h5]

theorem tap_phase_rise_high (b : Button) (s : GestureStatics) (ct : Nat)
    (hre : b.rising_edge = true)
    (hw : wsub ct s.last_tap_time ≤ TAP_TIMEOUT_MS)
    (h5 : (b.tap_count + 1) % 256 ≥ TAPS_TO_CHANGE) :
    detect_tap_phase b s ct =
      ({ b with tap_count := (b.tap_count + 1) % 256 }, ⟨ct, true⟩) := by
  unfold detect_tap_phase
  rw [if_pos hre, if_pos hw]
  dsimp only
  rw [if_pos h5]

theorem tap_phase_rise_out (b : Button) (s : GestureStatics) (ct : Nat)
    (hre : b.rising_edge = true)
    (hw : ¬ wsub ct s.last_tap_time ≤ TAP_TIMEOUT_MS) :
    detect_tap_phase b s ct = ({ b with tap_count := 1 }, ⟨ct, s.counting_hold⟩) := by
  unfold detect_tap_phase
  rw [if_pos hre, if_neg hw]

theorem tap_phase_norise (b : Button) (s : GestureStatics) (ct : Nat)
    (hre : b.rising_edge = false) :
    detect_tap_phase b s ct = (b, s) := by
  unfold detect_tap_phase
  rw [if_neg (by simp [hre] : ¬ (b.rising_edge = true))]

theorem hold_phase_off (b : Button) (s : GestureStatics) (ct : Nat)
    (h : (s.counting_hold && b.pressed) = false) :
    detect_hold_phase b s ct = (b, s, false) := by
  unfold detect_hold_phase
  rw [if_neg (by simp [h] : ¬ ((s.counting_hold && b.pressed) = true))]

theorem hold_phase_wait (b : Button) (s : GestureStatics) (ct : Nat)
    (h : (s.counting_hold && b.pressed) = true)
    (hlt : ¬ wsub ct s.last_tap_time ≥ HOLD_TIME_MS) :
    detect_hold_phase b s ct = (b, s, false) := by
  unfold detect_hold_phase
  rw [if_pos h, if_neg hlt]

theorem hold_phase_fire (b : Button) (s : GestureStatics) (ct : Nat)
    (h : (s.counting_hold && b.pressed) = true)
    (hge : wsub ct s.last_tap_time ≥ HOLD_TIME_MS) :
    detect_hold_phase b s ct =
      ({ b with tap_count := 0 }, ⟨s.last_tap_time, false⟩, true) := by
  unfold detect_hold_phase
  rw [if_pos h, if_pos hge]

theorem release_phase_pressed (b : Button) (s : GestureStatics) (ct : Nat)
    (h : b.pressed = true) :
    detect_release_phase b s ct = (b, s) := by
  unfold detect_release_phase
  rw [if_neg (by simp [h] : ¬ ((!b.pressed) = true))]

theorem release_phase_keep (b : Button) (s : GestureStatics) (ct : Nat)
    (h : b.pressed = false)
    (hw : ¬ wsub ct s.last_tap_time > TAP_TIMEOUT_MS) :
    detect_release_phase b s ct = (b, ⟨s.last_tap_time, false⟩) := by
  unfold detect_release_phase
  rw [if_pos (by simp [h] : (!b.pressed) = true)]
  dsimp only
  rw [if_neg hw]

theorem release_phase_clear (b : Button) (s : GestureStatics) (ct : Nat)
    (h : b.pressed = false)
    (hw : wsub ct s.last_tap_time > TAP_TIMEOUT_MS) :
    detect_release_phase b s ct =
      ({ b with tap_count := 0 }, ⟨s.last_tap_time, false⟩) := by
  unfold detect_release_phase
  rw [if_pos (by simp [h] : (!b.pressed) = true)]
  dsimp only
  rw [if_pos hw]

/-- button_update for a debounced tap within the tap window, while fewer
than TAPS_TO_CHANGE taps have accumulated: the tap is counted. -/
theorem gesture_press_low (b : Button) (ltap t : Nat)
    (hp : b.pressed = false) (hls : b.last_state = false)
    (hrt : b.last_rise_time ≤ t) (hU : t < U32)
    (hdb : EDGE_DEBOUNCE_MS < t - b.last_rise_time)
    (hlt : ltap ≤ t) (hw : t - ltap ≤ TAP_TIMEOUT_MS)
    (hk5 : b.tap_count + 1 < TAPS_TO_CHANGE) :
    button_update b ⟨ltap, false⟩ true t =
      ({ b with raw_state := true, pressed := true, last_state := true,
                rising_edge := true, falling_edge := false,
                tap_count := b.tap_count + 1, last_rise_time := t },
       ⟨t, false⟩) := by
  have hm : t % U32 = t := umod_eq_self hU
  have h256 : (b.tap_count + 1) % 256 = b.tap_count + 1 :=
    Nat.mod_eq_of_lt (by unfold TAPS_TO_CHANGE at hk5; omega)
  unfold button_update
  dsimp only
  rw [has_rising_edge_eq_pos _ t (by simp [hls])
    (by rw [hm, wsub_eq_sub hrt hU]; exact hdb)]
  dsimp only
  rw [if_pos (rfl : (true : Bool) = true)]
  rw [has_falling_edge_eq_neg _ t (Or.inl (by simp))]
  dsimp only
  rw [if_neg Bool.false_ne_true]
  unfold button_detect_config_action
  dsimp only
  rw [tap_phase_rise_low _ _ _ rfl
    (by dsimp only; rw [hm, wsub_eq_sub hlt hU]; exact hw)
    (by dsimp only; rw [h256]; omega)]
  dsimp only
  rw [hold_phase_off _ _ _ (by simp)]
  dsimp only
  rw [release_phase_pressed _ _ _ rfl]
  dsimp only
  rw [if_neg Bool.false_ne_true]
  rw [hm, h256]

/-- button_update for the debounced tap that reaches TAPS_TO_CHANGE: the
hold-counting phase is entered. -/
theorem gesture_press_high (b : Button) (ltap t : Nat)
    (hp : b.pressed = false) (hls : b.last_state = false)
    (hrt : b.last_rise_time ≤ t) (hU : t < U32)
    (hdb : EDGE_DEBOUNCE_MS < t - b.last_rise_time)
    (hlt : ltap ≤ t) (hw : t - ltap ≤ TAP_TIMEOUT_MS)
    (hk5 : TAPS_TO_CHANGE ≤ b.tap_count + 1) (hk255 : b.tap_count + 1 < 256) :
    button_update b ⟨ltap, false⟩ true t =
      ({ b with raw_state := true, pressed := true, last_state := true,
                rising_edge := true, falling_edge := false,
                tap_count := b.tap_count + 1, last_rise_time := t },
       ⟨t, true⟩) := by
  have hm : t % U32 = t := umod_eq_self hU
  have h256 : (b.tap_count + 1) % 256 = b.tap_count + 1 := Nat.mod_eq_of_lt hk255
  unfold button_update
  dsimp only
  rw [has_rising_edge_eq_pos _ t (by simp [hls])
    (by rw [hm, wsub_eq_sub hrt hU]; exact hdb)]
  dsimp only
  rw [if_pos (rfl : (true : Bool) = true)]
  rw [has_falling_edge_eq_neg _ t (Or.inl (by simp))]
  dsimp only
  rw [if_neg Bool.false_ne_true]
  unfold button_detect_config_action
  dsimp only
  rw [tap_phase_rise_high _ _ _ rfl
    (by dsimp only; rw [hm, wsub_eq_sub hlt hU]; exact hw)
    (by dsimp only; rw [h256]; exact hk5)]
  dsimp only
  rw [hold_phase_wait _ _ _ (by simp)
    (by dsimp only; rw [hm, wsub_self hU]; unfold HOLD_TIME_MS; omega)]
  dsimp only
  rw [release_phase_pressed _ _ _ rfl]
  dsimp only
  rw [if_neg Bool.false_ne_true]
  rw [hm, h256]

/-- button_update for a debounced tap arriving after the tap window has
expired: tap_count restarts at 1. -/
theorem gesture_press_out (b : Button) (ltap t : Nat)
    (hp : b.pressed = false) (hls : b.last_state = false)
    (hrt : b.last_rise_time ≤ t) (hU : t < U32)
    (hdb : EDGE_DEBOUNCE_MS < t - b.last_rise_time)
    (hlt : ltap ≤ t) (hw : ¬ t - ltap ≤ TAP_TIMEOUT_MS) :
    button_update b ⟨ltap, false⟩ true t =
      ({ b with raw_state := true, pressed := true, last_state := true,
                rising_edge := true, falling_edge := false,
                tap_count := 1, last_rise_time := t },
       ⟨t, false⟩) := by
  have hm : t % U32 = t := umod_eq_self hU
  unfold button_update
  dsimp only
  rw [has_rising_edge_eq_pos _ t (by simp [hls])
    (by rw [hm, wsub_eq_sub hrt hU]; exact hdb)]
  dsimp only
  rw [if_pos (rfl : (true : Bool) = true)]
  rw [has_falling_edge_eq_neg _ t (Or.inl (by simp))]
  dsimp only
  rw [if_neg Bool.false_ne_true]
  unfold button_detect_config_action
  dsimp only
  rw [tap_phase_rise_out _ _ _ rfl
    (by dsimp only; rw [hm, wsub_eq_sub hlt hU]; exact hw)]
  dsimp only
  rw [hold_phase_off _ _ _ (by simp)]
  dsimp only
  rw [release_phase_pressed _ _ _ rfl]
  dsimp only
  rw [if_neg Bool.false_ne_true]
  rw [hm]

/-- button_update for the very first press of a freshly reset button at a
time past the debounce window: one tap is recorded whether or not the
(zero-initialized) tap window has expired. -/
theorem gesture_first_press (pin t : Nat)
    (hdb : EDGE_DEBOUNCE_MS < t) (hU : t < U32) :
    button_update (button_init pin) ⟨0, false⟩ true t =
      ({ pin := pin, raw_state := true, pressed := true, last_state := true,
         rising_edge := true, falling_edge := false, config_action := false,
         tap_count := 1, last_rise_time := t, last_fall_time := 0 },
       ⟨t, false⟩) := by
  have hb : button_init pin =
      { pin := pin, raw_state := false, pressed := false, last_state := false,
        rising_edge := false, falling_edge := false, config_action := false,
        tap_count := 0, last_rise_time := 0, last_fall_time := 0 } := rfl
  rw [hb]
  by_cases hw : t - 0 ≤ TAP_TIMEOUT_MS
  · have h := gesture_press_low
      { pin := pin, raw_state := false, pressed := false, last_state := false,
        rising_edge := false, falling_edge := false, config_action := false,
        tap_count := 0, last_rise_time := 0, last_fall_time := 0 }
      0 t rfl rfl (Nat.zero_le t) hU (by dsimp only; omega) (Nat.zero_le t) hw
      (by dsimp only; decide)
    exact h
  · have h := gesture_press_out
      { pin := pin, raw_state := false, pressed := false, last_state := false,
        rising_edge := false, falling_edge := false, config_action := false,
        tap_count := 0, last_rise_time := 0, last_fall_time := 0 }
      0 t rfl rfl (Nat.zero_le t) hU (by dsimp only; omega) (Nat.zero_le t) hw
    exact h

/-- button_update for a debounced release: the hold-counting phase is
cancelled; tap_count survives exactly when the release is within
TAP_TIMEOUT_MS of the last tap. -/
theorem gesture_release (b : Button) (ltap : Nat) (ch : Bool) (r : Nat)
    (hp : b.pressed = true) (hls : b.last_state = true)
    (hft : b.last_fall_time ≤ r) (hU : r < U32)
    (hdb : EDGE_DEBOUNCE_MS < r - b.last_fall_time)
    (hlt : ltap ≤ r) :
    button_update b ⟨ltap, ch⟩ false r =
      ({ b with raw_state := false, pressed := false, last_state := false,
                rising_edge := false, falling_edge := true,
                tap_count := if TAP_TIMEOUT_MS < r - ltap then 0 else b.tap_count,
                last_fall_time := r },
       ⟨ltap, false⟩) := by
  have hm : r % U32 = r := umod_eq_self hU
  unfold button_update
  dsimp only
  rw [has_rising_edge_eq_neg _ r (Or.inl (by simp))]
  dsimp only
  rw [if_neg Bool.false_ne_true]
  rw [has_falling_edge_eq_pos _ r (by simp [hls])
    (by rw [hm, wsub_eq_sub hft hU]; exact hdb)]
  dsimp only
  rw [if_pos (rfl : (true : Bool) = true)]
  unfold button_detect_config_action
  dsimp only
  rw [tap_phase_norise _ _ _ rfl]
  dsimp only
  rw [hold_phase_off _ _ _ (by simp)]
  dsimp only
  by_cases hto : TAP_TIMEOUT_MS < r - ltap
  · rw [release_phase_clear _ _ _ rfl
      (by dsimp only; rw [hm, wsub_eq_sub hlt hU]; exact hto)]
    dsimp only
    rw [if_neg Bool.false_ne_true]
    rw [hm, if_pos hto]
  · rw [release_phase_keep _ _ _ rfl
      (by dsimp only; rw [hm, wsub_eq_sub hlt hU]; exact hto)]
    dsimp only
    rw [if_neg Bool.false_ne_true]
    rw [hm, if_neg hto]

/-- button_update while the button is held with the hold-counting flag set
and HOLD_TIME_MS elapsed since the last tap: config_action fires. -/
theorem gesture_hold_fire (b : Button) (ltap T : Nat)
    (hp : b.pressed = true) (hls : b.last_state = true)
    (hlt : ltap ≤ T) (hU : T < U32) (hhold : HOLD_TIME_MS ≤ T - ltap) :
    button_update b ⟨ltap, true⟩ true T =
      ({ b with raw_state := true, rising_edge := false, falling_edge := false,
                config_action := true, tap_count := 0, last_state := true },
       ⟨ltap, false⟩) := by
  have hm : T % U32 = T := umod_eq_self hU
  unfold button_update
  dsimp only
  rw [has_rising_edge_eq_neg _ T (Or.inl (by simp [hls]))]
  dsimp only
  rw [if_neg Bool.false_ne_true]
  rw [has_falling_edge_eq_neg _ T (Or.inl (by simp))]
  dsimp only
  rw [if_neg Bool.false_ne_true]
  unfold button_detect_config_action
  dsimp only
  rw [tap_phase_norise _ _ _ rfl]
  dsimp only
  rw [hold_phase_fire _ _ _ (by simp [hp])
    (by dsimp only; rw [hm, wsub_eq_sub hlt hU]; exact hhold)]
  dsimp only
  rw [release_phase_pressed _ _ _ (by simp [hp])]
  dsimp only
  rw [if_pos (rfl : (true : Bool) = true)]
  rw [hls, hp]

/-- button_update while the button is held but HOLD_TIME_MS has not yet
elapsed since the last tap: nothing changes beyond the fresh pin sample. -/
theorem gesture_hold_idle (b : Button) (ltap T : Nat) (ch : Bool)
    (hp : b.pressed = true) (hls : b.last_state = true)
    (hlt : ltap ≤ T) (hU : T < U32) (hhold : T - ltap < HOLD_TIME_MS) :
    button_update b ⟨ltap, ch⟩ true T =
      ({ b with raw_state := true, rising_edge := false, falling_edge := false,
                last_state := true },
       ⟨ltap, ch⟩) := by
  have hm : T % U32 = T := umod_eq_self hU
  unfold button_update
  dsimp only
  rw [has_rising_edge_eq_neg _ T (Or.inl (by simp [hls]))]
  dsimp only
  rw [if_neg Bool.false_ne_true]
  rw [has_falling_edge_eq_neg _ T (Or.inl (by simp))]
  dsimp only
  rw [if_neg Bool.false_ne_true]
  unfold button_detect_config_action
  dsimp only
  rw [tap_phase_norise _ _ _ rfl]
  dsimp only
  rcases hch : ch with _ | _
  · rw [hold_phase_off _ _ _ (by simp)]
    dsimp only
    rw [release_phase_pressed _ _ _ (by simp [hp])]
    dsimp only
    rw [if_neg Bool.false_ne_true]
    rw [hls, hp]
  · rw [hold_phase_wait _ _ _ (by simp [hp])
      (by dsimp only; rw [hm, wsub_eq_sub hlt hU]; omega)]
    dsimp only
    rw [release_phase_pressed _ _ _ (by simp [hp])]
    dsimp only
    rw [if_neg Bool.false_ne_true]
    rw [hls, hp]

theorem button_run_append (b : Button) (s : GestureStatics) :
    ∀ (l1 l2 : List (Nat × Bool)),
      button_run b s (l1 ++ l2) =
        button_run (button_run b s l1).1 (button_run b s l1).2 l2
  | [], _ => rfl
  | (t, raw) :: rest, l2 => by
    simp only [List.cons_append, button_run]
    exact button_run_append (button_update b s raw t).1
      (button_update b s raw t).2 rest l2

/-- State after five valid taps: presses at t1..t5 (releases at r1..r4 in
between), each press within TAP_TIMEOUT_MS of the previous and all edges
debounced: tap_count reaches 5 and the shared hold-counting flag is set,
with the fifth tap time recorded. -/
theorem gesture_prefix (pin t1 r1 t2 r2 t3 r3 t4 r4 t5 : Nat)
    (h01 : EDGE_DEBOUNCE_MS < t1)
    (ho1 : t1 < r1) (ho2 : r1 < t2) (ho3 : t2 < r2) (ho4 : r2 < t3)
    (ho5 : t3 < r3) (ho6 : r3 < t4) (ho7 : t4 < r4) (ho8 : r4 < t5)
    (hd2 : EDGE_DEBOUNCE_MS < t2 - t1) (hd3 : EDGE_DEBOUNCE_MS < t3 - t2)
    (hd4 : EDGE_DEBOUNCE_MS < t4 - t3) (hd5 : EDGE_DEBOUNCE_MS < t5 - t4)
    (he2 : EDGE_DEBOUNCE_MS < r2 - r1) (he3 : EDGE_DEBOUNCE_MS < r3 - r2)
    (he4 : EDGE_DEBOUNCE_MS < r4 - r3)
    (hw2 : t2 - t1 ≤ TAP_TIMEOUT_MS) (hw3 : t3 - t2 ≤ TAP_TIMEOUT_MS)
    (hw4 : t4 - t3 ≤ TAP_TIMEOUT_MS) (hw5 : t5 - t4 ≤ TAP_TIMEOUT_MS)
    (hU : t5 < U32) :
    button_run (button_init pin) gestureStaticsInit
      [(t1, true), (r1, false), (t2, true), (r2, false), (t3, true),
       (r3, false), (t4, true), (r4, false), (t5, true)] =
      ({ pin := pin, raw_state := true, pressed := true, last_state := true,
         rising_edge := true, falling_edge := false, config_action := false,
         tap_count := 5, last_rise_time := t5, last_fall_time := r4 },
       ⟨t5, true⟩) := by
  rw [show gestureStaticsInit = (⟨0, false⟩ : GestureStatics) from rfl]
  simp only [button_run]
  rw [gesture_first_press pin t1 h01 (by omega)]
  dsimp only
  rw [gesture_release _ t1 false r1 rfl rfl (by dsimp only; omega) (by omega)
    (by dsimp only; omega) (by omega)]
  rw [if_neg (show ¬ TAP_TIMEOUT_MS < r1 - t1 by omega)]
  dsimp only
  rw [gesture_press_low _ t1 t2 rfl rfl (by dsimp only; omega) (by omega)
    (by dsimp only; omega) (by omega) hw2 (by dsimp only; decide)]
  dsimp only
  rw [gesture_release _ t2 false r2 rfl rfl (by dsimp only; omega) (by omega)
    (by dsimp only; omega) (by omega)]
  rw [if_neg (show ¬ TAP_TIMEOUT_MS < r2 - t2 by omega)]
  dsimp only
  rw [gesture_press_low _ t2 t3 rfl rfl (by dsimp only; omega) (by omega)
    (by dsimp only; omega) (by omega) hw3 (by dsimp only; decide)]
  dsimp only
  rw [gesture_release _ t3 false r3 rfl rfl (by dsimp only; omega) (by omega)
    (by dsimp only; omega) (by omega)]
  rw [if_neg (show ¬ TAP_TIMEOUT_MS < r3 - t3 by omega)]
  dsimp only
  rw [gesture_press_low _ t3 t4 rfl rfl (by dsimp only; omega) (by omega)
    (by dsimp only; omega) (by omega) hw4 (by dsimp only; decide)]
  dsimp only
  rw [gesture_release _ t4 false r4 rfl rfl (by dsimp only; omega) (by omega)
    (by dsimp only; omega) (by omega)]
  rw [if_neg (show ¬ TAP_TIMEOUT_MS < r4 - t4 by omega)]
  dsimp only
  rw [gesture_press_high _ t4 t5 rfl rfl (by dsimp only; omega) (by omega)
    (by dsimp only; omega) (by omega) hw5 (by dsimp only; decide) (by dsimp only; decide)]

/-- C3, amended: for every Button, 5 debounced taps each separated by at
most TAP_TIMEOUT_MS, with the button then held so that HOLD_TIME_MS elapses
from the 5th tap's rising edge, set config_action (and reset tap_count);
the same gesture released at any update call before HOLD_TIME_MS has
elapsed does not set it and cancels the hold-counting phase — but
tap_count survives the release only when the release call is within
TAP_TIMEOUT_MS of the 5th tap, and is reset to zero otherwise (see the
counterexample). -/
theorem claim3_amended (pin t1 r1 t2 r2 t3 r3 t4 r4 t5 T Tp R : Nat)
    (h01 : EDGE_DEBOUNCE_MS < t1)
    (ho1 : t1 < r1) (ho2 : r1 < t2) (ho3 : t2 < r2) (ho4 : r2 < t3)
    (ho5 : t3 < r3) (ho6 : r3 < t4) (ho7 : t4 < r4) (ho8 : r4 < t5)
    (hd2 : EDGE_DEBOUNCE_MS < t2 - t1) (hd3 : EDGE_DEBOUNCE_MS < t3 - t2)
    (hd4 : EDGE_DEBOUNCE_MS < t4 - t3) (hd5 : EDGE_DEBOUNCE_MS < t5 - t4)
    (he2 : EDGE_DEBOUNCE_MS < r2 - r1) (he3 : EDGE_DEBOUNCE_MS < r3 - r2)
    (he4 : EDGE_DEBOUNCE_MS < r4 - r3)
    (hw2 : t2 - t1 ≤ TAP_TIMEOUT_MS) (hw3 : t3 - t2 ≤ TAP_TIMEOUT_MS)
    (hw4 : t4 - t3 ≤ TAP_TIMEOUT_MS) (hw5 : t5 - t4 ≤ TAP_TIMEOUT_MS)
    (hT5 : t5 ≤ T) (hTU : T < U32) (hhold : HOLD_TIME_MS ≤ T - t5)
    (hTp5 : t5 ≤ Tp) (hTpU : Tp < U32) (hTpi : Tp - t5 < HOLD_TIME_MS)
    (hR4 : EDGE_DEBOUNCE_MS < R - r4) (hR5 : t5 ≤ R) (hRU : R < U32) :
    ((button_run (button_init pin) gestureStaticsInit
        [(t1, true), (r1, false), (t2, true), (r2, false), (t3, true),
         (r3, false), (t4, true), (r4, false), (t5, true),
         (T, true)]).1.config_action = true) ∧
    ((button_run (button_init pin) gestureStaticsInit
        [(t1, true), (r1, false), (t2, true), (r2, false), (t3, true),
         (r3, false), (t4, true), (r4, false), (t5, true), (Tp, true),
         (R, false)]).1.config_action = false ∧
      (button_run (button_init pin) gestureStaticsInit
        [(t1, true), (r1, false), (t2, true), (r2, false), (t3, true),
         (r3, false), (t4, true), (r4, false), (t5, true), (Tp, true),
         (R, false)]).2.counting_hold = false ∧
      (button_run (button_init pin) gestureStaticsInit
        [(t1, true), (r1, false), (t2, true), (r2, false), (t3, true),
         (r3, false), (t4, true), (r4, false), (t5, true), (Tp, true),
         (R, false)]).1.tap_count
        = (if TAP_TIMEOUT_MS < R - t5 then 0 else 5)) := by
  have hpre := gesture_prefix pin t1 r1 t2 r2 t3 r3 t4 r4 t5 h01 ho1 ho2 ho3
    ho4 ho5 ho6 ho7 ho8 hd2 hd3 hd4 hd5 he2 he3 he4 hw2 hw3 hw4 hw5 (by omega)
  constructor
  · rw [show ([(t1, true), (r1, false), (t2, true), (r2, false), (t3, true),
        (r3, false), (t4, true), (r4, false), (t5, true), (T, true)]
          : List (Nat × Bool))
      = [(t1, true), (r1, false), (t2, true), (r2, false), (t3, true),
         (r3, false), (t4, true), (r4, false), (t5, true)] ++ [(T, true)]
      from rfl]
    rw [button_run_append, hpre]
    simp only [button_run]
    rw [gesture_hold_fire _ t5 T rfl rfl hT5 hTU hhold]
  · rw [show ([(t1, true), (r1, false), (t2, true), (r2, false), (t3, true),
        (r3, false), (t4, true), (r4, false), (t5, true), (Tp, true),
        (R, false)] : List (Nat × Bool))
      = [(t1, true), (r1, false), (t2, true), (r2, false), (t3, true),
         (r3, false), (t4, true), (r4, false), (t5, true)]
        ++ [(Tp, true), (R, false)] from rfl]
    rw [button_run_append, hpre]
    simp only [button_run]
    rw [gesture_hold_idle _ t5 Tp true rfl rfl hTp5 hTpU hTpi]
    dsimp only
    rw [gesture_release _ t5 true R rfl rfl (by dsimp only; omega) hRU
      (by dsimp only; omega) hR5]
    dsimp only
    exact ⟨rfl, rfl, rfl⟩

/-- C3 witness: taps at 10, 110, 210, 310, 410 with releases at 60..360;
holding through t = 1410 (1000 ms after the 5th tap) sets config_action;
releasing at t = 1010 after an idle check at t = 900 does not, cancels the
hold-counting phase, and (1010 − 410 being above the tap timeout) resets
tap_count. -/
theorem claim3_witness :
    ((button_run (button_init 0) gestureStaticsInit
        [(10, true), (60, false), (110, true), (160, false), (210, true),
         (260, false), (310, true), (360, false), (410, true),
         (1410, true)]).1.config_action = true) ∧
    ((button_run (button_init 0) gestureStaticsInit
        [(10, true), (60, false), (110, true), (160, false), (210, true),
         (260, false), (310, true), (360, false), (410, true), (900, true),
         (1010, false)]).1.config_action = false ∧
      (button_run (button_init 0) gestureStaticsInit
        [(10, true), (60, false), (110, true), (160, false), (210, true),
         (260, false), (310, true), (360, false), (410, true), (900, true),
         (1010, false)]).2.counting_hold = false ∧
      (button_run (button_init 0) gestureStaticsInit
        [(10, true), (60, false), (110, true), (160, false), (210, true),
         (260, false), (310, true), (360, false), (410, true), (900, true),
         (1010, false)]).1.tap_count
        = (if TAP_TIMEOUT_MS < 1010 - 410 then 0 else 5)) :=
  claim3_amended 0 10 60 110 160 210 260 310 360 410 1410 900 1010
    (by decide) (by decide) (by decide) (by decide) (by decide) (by decide)
    (by decide) (by decide) (by decide) (by decide) (by decide) (by decide)
    (by decide) (by decide) (by decide) (by decide) (by decide) (by decide)
    (by decide) (by decide) (by decide) (by decide) (by decide) (by decide)
    (by decide) (by decide) (by decide) (by decide) (by decide)

end ButtonGate
